import Mathlib

/-
Shallow embedding of the Binance-burak trading application core.

Source files embedded here:
  app/paper.py      — simulated position/risk engine (PaperBroker)
  app/state.py      — per-instrument rolling metrics (EmaCalc, SymbolState)
  app/binance_ws.py — decision engine and flip/cooldown controller
  app/config.py     — Settings (flat numeric/boolean configuration)

Python floats are embedded as exact rationals (ℚ), Python ints as ℤ/ℕ,
Python None as Option.none, Python exceptions as Except.error, and the
wall clock (now_ms) as an explicit parameter threaded through the
operations that read it.  Python dicts keyed by symbol are embedded as
association lists together with explicit lookup/update/erase operations
that reproduce dict semantics (first-match lookup, in-place value update,
single-key removal, append of a fresh key).
-/

namespace App

/-- Python str.upper() for the ASCII symbol names used here, written over
the character list so that it evaluates inside the kernel. -/
def pyUpper (s : String) : String := String.mk (s.data.map Char.toUpper)

/-! ### Association-list model of Python dicts -/

/-- Dict lookup: first entry with the given key (dict.get). -/
def alookup (k : String) : List (String × α) → Option α
  | [] => none
  | kv :: rest => if kv.1 = k then some kv.2 else alookup k rest

/-- Dict assignment d[k] = v: overwrite the entry if the key is present,
otherwise append a fresh entry. -/
def upsert (l : List (String × α)) (k : String) (v : α) : List (String × α) :=
  if (alookup k l).isSome then l.map (fun kv => if kv.1 = k then (k, v) else kv)
  else l ++ [(k, v)]

/-- Dict removal d.pop(k): delete the first entry with the given key. -/
def eraseKey (l : List (String × α)) (k : String) : List (String × α) :=
  match l with
  | [] => []
  | kv :: rest => if kv.1 = k then rest else kv :: eraseKey rest k

@[simp] theorem alookup_nil (k : String) : alookup k ([] : List (String × α)) = none := rfl

@[simp] theorem alookup_cons (k : String) (kv : String × α) (rest : List (String × α)) :
    alookup k (kv :: rest) = if kv.1 = k then some kv.2 else alookup k rest := rfl

theorem alookup_eq_none_of_not_mem {k : String} {l : List (String × α)}
    (h : k ∉ l.map Prod.fst) : alookup k l = none := by
  induction l with
  | nil => rfl
  | cons kv rest ih =>
    simp only [List.map_cons, List.mem_cons] at h
    push_neg at h
    rw [alookup_cons, if_neg (fun he => h.1 (Eq.symm he)), ih h.2]

theorem mem_of_alookup_eq_some {k : String} {v : α} {l : List (String × α)}
    (h : alookup k l = some v) : (k, v) ∈ l := by
  induction l with
  | nil => simp [alookup] at h
  | cons kv rest ih =>
    simp only [alookup_cons] at h
    by_cases hk : kv.1 = k
    · rw [if_pos hk] at h
      obtain ⟨k1, v1⟩ := kv
      simp only [Option.some.injEq] at h
      subst h
      subst hk
      exact List.mem_cons_self _ _
    · rw [if_neg hk] at h
      exact List.mem_cons_of_mem _ (ih h)

theorem alookup_append_single_self {k : String} {l : List (String × α)} (v : α)
    (h : alookup k l = none) : alookup k (l ++ [(k, v)]) = some v := by
  induction l with
  | nil => simp [alookup]
  | cons kv rest ih =>
    rw [alookup_cons] at h
    by_cases hk : kv.1 = k
    · rw [if_pos hk] at h; exact absurd h (by simp)
    · rw [if_neg hk] at h
      rw [List.cons_append, alookup_cons, if_neg hk]
      exact ih h

theorem alookup_map_replace (k : String) (v : α) (l : List (String × α)) :
    alookup k (l.map (fun kv => if kv.1 = k then (k, v) else kv)) =
      (alookup k l).map (fun _ => v) := by
  induction l with
  | nil => rfl
  | cons kv rest ih =>
    by_cases hk : kv.1 = k
    · simp [alookup, hk]
    · simp [alookup, hk, ih]

theorem mem_map_replace {k : String} {v : α} {kv : String × α} {l : List (String × α)}
    (h : kv ∈ l.map (fun e => if e.1 = k then (k, v) else e)) :
    kv = (k, v) ∨ kv ∈ l := by
  induction l with
  | nil => simp at h
  | cons e rest ih =>
    simp only [List.map_cons, List.mem_cons] at h
    rcases h with h | h
    · by_cases he : e.1 = k
      · rw [if_pos he] at h; exact Or.inl h
      · rw [if_neg he] at h; exact Or.inr (h ▸ List.mem_cons_self e rest)
    · rcases ih h with h | h
      · exact Or.inl h
      · exact Or.inr (List.mem_cons_of_mem _ h)

theorem mem_of_mem_eraseKey {k : String} {kv : String × α} {l : List (String × α)}
    (h : kv ∈ eraseKey l k) : kv ∈ l := by
  induction l with
  | nil => simp [eraseKey] at h
  | cons e rest ih =>
    simp only [eraseKey] at h
    by_cases he : e.1 = k
    · rw [if_pos he] at h
      exact List.mem_cons_of_mem _ h
    · rw [if_neg he] at h
      rw [List.mem_cons] at h
      rcases h with h | h
      · exact h ▸ List.mem_cons_self e rest
      · exact List.mem_cons_of_mem _ (ih h)

theorem alookup_eraseKey_self {k : String} {l : List (String × α)}
    (hnd : (l.map Prod.fst).Nodup) : alookup k (eraseKey l k) = none := by
  induction l with
  | nil => rfl
  | cons kv rest ih =>
    simp only [List.map_cons, List.nodup_cons] at hnd
    simp only [eraseKey]
    by_cases hk : kv.1 = k
    · rw [if_pos hk]
      exact alookup_eq_none_of_not_mem (hk ▸ hnd.1)
    · rw [if_neg hk]
      simp only [alookup_cons, if_neg hk]
      exact ih hnd.2

theorem eraseKey_length {k : String} {v : α} {l : List (String × α)}
    (h : alookup k l = some v) : (eraseKey l k).length + 1 = l.length := by
  induction l with
  | nil => simp [alookup] at h
  | cons kv rest ih =>
    simp only [alookup_cons] at h
    simp only [eraseKey]
    by_cases hk : kv.1 = k
    · simp [if_pos hk]
    · rw [if_neg hk] at h
      simp [if_neg hk, ← ih h]

theorem alookup_eraseKey_of_ne {k j : String} {l : List (String × α)} (hne : j ≠ k) :
    alookup j (eraseKey l k) = alookup j l := by
  induction l with
  | nil => rfl
  | cons kv rest ih =>
    simp only [eraseKey]
    by_cases hk : kv.1 = k
    · rw [if_pos hk]
      simp only [alookup_cons, if_neg (fun hj : kv.1 = j => hne (hj ▸ hk ▸ rfl))]
    · rw [if_neg hk]
      simp only [alookup_cons, ih]

theorem not_mem_of_alookup_eq_none {k : String} {l : List (String × α)}
    (h : alookup k l = none) : k ∉ l.map Prod.fst := by
  induction l with
  | nil => simp
  | cons kv rest ih =>
    simp only [alookup_cons] at h
    by_cases hk : kv.1 = k
    · rw [if_pos hk] at h; exact absurd h (by simp)
    · rw [if_neg hk] at h
      simp only [List.map_cons, List.mem_cons]
      push_neg
      exact ⟨fun he => hk he.symm, ih h⟩

theorem nodup_append_single {k : String} {v : α} {l : List (String × α)}
    (h : alookup k l = none) (hnd : (l.map Prod.fst).Nodup) :
    ((l ++ [(k, v)]).map Prod.fst).Nodup := by
  rw [List.map_append]
  refine List.Nodup.append hnd (by simp) ?_
  intro a ha hb
  simp only [List.map_cons, List.map_nil, List.mem_singleton] at hb
  subst hb
  exact not_mem_of_alookup_eq_none h ha

/-! ### app/config.py — Settings

Only the fields consumed by the embedded code are modelled.  Fields are
runtime parameters (they come from environment variables); the values in
`defaultSettings` are the defaults written in config.py.  Attributes that
binance_ws.py reads with getattr but that the Settings class does NOT
define (VWAP_DEV_MAX, SR_NEAR_PCT, RSI_LONG_MAX, IMB_LONG_MIN,
VOL_SPIKE_MIN, CVD_ABS_MIN, RSI_SHORT_MIN, IMB_SHORT_MAX, VWAP_SHORT_MIN,
VWAP_SHORT_MAX, SIGNAL_COOLDOWN_MS) always take the literal getattr
fallback, so they appear as literals at their use sites, not here. -/

structure Settings where
  MAX_POSITIONS : ℕ
  VWAP_WINDOW_SEC : ℤ
  ATR_WINDOW_SEC : ℤ
  MIN_TICKS_PER_SEC : ℚ
  MAX_SPREAD_BPS : ℚ
  ATR_MIN : ℚ
  ATR_MAX : ℚ
  BUY_PRESSURE_MIN : ℚ
  AUTO_NOTIONAL_USD : ℚ
  AUTO_LEVERAGE : ℤ
  AUTO_MARGIN_USD : ℚ
  AUTO_ABS_TP_USD : ℚ
  AUTO_ABS_SL_USD : ℚ
  MAINT_MARGIN_RATE : ℚ
  FEE_MODE : String
  FEE_TAKER : ℚ
  FEE_MAKER : ℚ
  PAY_FEES_IN_BNB : Bool
  BNB_FEE_DISCOUNT : ℚ
deriving Repr, DecidableEq

/-- Defaults from config.py (values used when no environment override). -/
def defaultSettings : Settings where
  MAX_POSITIONS := 10
  VWAP_WINDOW_SEC := 60
  ATR_WINDOW_SEC := 60
  MIN_TICKS_PER_SEC := 1
  MAX_SPREAD_BPS := 5
  ATR_MIN := 2/10000
  ATR_MAX := 5/100
  BUY_PRESSURE_MIN := 55/100
  AUTO_NOTIONAL_USD := 10000
  AUTO_LEVERAGE := 10
  AUTO_MARGIN_USD := 1000
  AUTO_ABS_TP_USD := 50
  AUTO_ABS_SL_USD := 50
  MAINT_MARGIN_RATE := 4/1000
  FEE_MODE := "taker"
  FEE_TAKER := 4/10000
  FEE_MAKER := 2/10000
  PAY_FEES_IN_BNB := false
  BNB_FEE_DISCOUNT := 10/100

/-! ### app/paper.py — Position and PaperBroker -/

/-- Position dataclass (paper.py lines 13-43). -/
structure Position where
  symbol : String
  side : String
  qty : ℚ
  entry : ℚ
  stop : Option ℚ := none
  tp : Option ℚ := none
  pnl : ℚ := 0
  open_ts : ℤ := 0
  exit_price : Option ℚ := none
  close_ts : Option ℤ := none
  leverage : Option ℤ := none
  margin_usd : Option ℚ := none
  notional_usd : Option ℚ := none
  maint_margin_rate : Option ℚ := none
  liq_price : Option ℚ := none
  last_price : Option ℚ := none
  fee_open_usd : ℚ := 0
  fee_close_usd : ℚ := 0
  fee_total_usd : ℚ := 0
  fee_currency : String := "USD"
  fee_open_bnb : Option ℚ := none
  fee_close_bnb : Option ℚ := none
  fee_total_bnb : Option ℚ := none
deriving Repr, DecidableEq

/-- The rec dict built by PaperBroker.close (paper.py lines 173-194). -/
structure CloseRec where
  symbol : String
  side : String
  qty : ℚ
  entry : ℚ
  exit : ℚ
  pnl : ℚ
  net_pnl : ℚ
  leverage : Option ℤ
  margin_usd : Option ℚ
  notional_usd : ℚ
  liq_price : Option ℚ
  fee_open_usd : ℚ
  fee_close_usd : ℚ
  fee_total_usd : ℚ
  fee_currency : String
  fee_open_bnb : Option ℚ
  fee_close_bnb : Option ℚ
  fee_total_bnb : Option ℚ
  open_ts : ℤ
  close_ts : Option ℤ
deriving Repr, DecidableEq

/-- Typed domain errors: the ValueError raises in PaperBroker.open/close. -/
inductive BrokerError where
  | alreadyOpen (symbol : String)
  | maxPositionsReached
  | noOpenPosition
deriving Repr, DecidableEq

/-- PaperBroker mutable state (paper.py lines 45-57).  daily_loss_limit is
stored but never read by the engine; the on_close callback is an external
collaborator (DB insert), its payload is retained in last_closed. -/
structure PaperBroker where
  max_positions : ℕ
  positions : List (String × Position)
  closed_count : ℕ
  last_closed : Option CloseRec
deriving Repr, DecidableEq

/-- PaperBroker._approx_liq_price (paper.py lines 60-68).
Python: `if not lev or lev <= 0 or entry <= 0: return None` — `not lev`
is true for None and for 0, both subsumed by lev ≤ 0. -/
def approx_liq_price (side : String) (entry : ℚ) (lev : Option ℤ) (mmr : Option ℚ) :
    Option ℚ :=
  let l : ℤ := lev.getD 0
  if l ≤ 0 ∨ entry ≤ 0 then none
  else
    let m := mmr.getD 0
    if side = "long" then some (entry * (1 - 1 / (l : ℚ) + m))
    else some (entry * (1 + 1 / (l : ℚ) - m))

/-- PaperBroker._pnl (paper.py lines 70-75). -/
def pnl (side : String) (entry price qty : ℚ) : ℚ :=
  if side = "long" then (price - entry) * qty else (entry - price) * qty

/-- PaperBroker._fee_rate_effective (paper.py lines 77-83).  The for_open
flag is accepted and ignored, exactly as in the source. -/
def fee_rate_effective (s : Settings) (_for_open : Bool) : ℚ :=
  let base := if s.FEE_MODE.toLower = "taker" then s.FEE_TAKER else s.FEE_MAKER
  if s.PAY_FEES_IN_BNB then base * (1 - s.BNB_FEE_DISCOUNT) else base

/-- The notional computed by PaperBroker.open (paper.py lines 110-114).
Python truthiness: `if leverage and margin_usd` requires both present and
nonzero, otherwise the notional falls back to qty * entry. -/
def openNotional (qty entry : ℚ) (leverage : Option ℤ)
    (margin_usd notional_usd : Option ℚ) : ℚ :=
  match notional_usd with
  | some n => n
  | none =>
    match leverage, margin_usd with
    | some lev, some m => if lev ≠ 0 ∧ m ≠ 0 then (lev : ℚ) * m else qty * entry
    | _, _ => qty * entry

/-- PaperBroker.open (paper.py lines 86-142).  Named open_ because `open`
is reserved in Lean.  now_ms() is the explicit nowMs argument. -/
def PaperBroker.open_ (s : Settings) (b : PaperBroker) (symbol side : String)
    (qty price : ℚ) (stop tp : Option ℚ) (leverage : Option ℤ)
    (margin_usd maint_margin_rate notional_usd : Option ℚ) (nowMs : ℤ) :
    Except BrokerError (PaperBroker × Position) :=
  if (alookup (pyUpper symbol) b.positions).isSome then
    .error (.alreadyOpen symbol)
  else if b.max_positions ≤ b.positions.length then
    .error .maxPositionsReached
  else
    let entry := price
    let notional1 : ℚ := openNotional qty entry leverage margin_usd notional_usd
    let liq_px := approx_liq_price side entry leverage maint_margin_rate
    let fee_rate_open := fee_rate_effective s true
    let fee_open := notional1 * fee_rate_open
    let pos : Position := {
      symbol := (pyUpper symbol)
      side := side
      qty := qty
      entry := entry
      stop := stop
      tp := tp
      pnl := 0
      open_ts := nowMs
      leverage := leverage
      margin_usd := margin_usd
      notional_usd := some notional1
      maint_margin_rate := maint_margin_rate
      liq_price := liq_px
      last_price := none
      fee_open_usd := fee_open
      fee_currency := if s.PAY_FEES_IN_BNB then "BNB" else "USD" }
    .ok ({ b with positions := b.positions ++ [((pyUpper symbol), pos)] }, pos)

/-- PaperBroker.close (paper.py lines 144-202).  The on_close callback is
fire-and-forget persistence; its payload is the CloseRec stored in
last_closed. -/
def PaperBroker.close (s : Settings) (b : PaperBroker) (symbol : String) (price : ℚ)
    (bnb_usd_price : Option ℚ) (nowMs : ℤ) : Except BrokerError (PaperBroker × Position) :=
  let sym := (pyUpper symbol)
  match alookup sym b.positions with
  | none => .error .noOpenPosition
  | some pos0 =>
    let positions1 := eraseKey b.positions sym
    let exit_px := price
    let raw_pnl := pnl pos0.side pos0.entry exit_px pos0.qty
    let close_notional := exit_px * pos0.qty
    let fee_rate_close := fee_rate_effective s false
    let fee_close := close_notional * fee_rate_close
    -- Python: (fee_open or 0.0) + (fee_close or 0.0); both are plain floats
    let fee_total := pos0.fee_open_usd + fee_close
    -- Optional BNB conversion of the fees (truthiness on bnb_usd_price).
    let bnbFees : Option ℚ × Option ℚ × Option ℚ :=
      if s.PAY_FEES_IN_BNB then
        match bnb_usd_price with
        | some bpx =>
          if bpx ≠ 0 ∧ 0 < bpx then
            (some (if pos0.fee_open_usd = 0 then 0 else pos0.fee_open_usd / bpx),
             some (if fee_close = 0 then 0 else fee_close / bpx),
             some (fee_total / bpx))
          else (none, none, none)
        | none => (none, none, none)
      else (pos0.fee_open_bnb, pos0.fee_close_bnb, pos0.fee_total_bnb)
    let pos1 : Position := { pos0 with
      exit_price := some exit_px
      close_ts := some nowMs
      pnl := raw_pnl
      fee_close_usd := fee_close
      fee_total_usd := fee_total
      fee_open_bnb := bnbFees.1
      fee_close_bnb := bnbFees.2.1
      fee_total_bnb := bnbFees.2.2 }
    let record : CloseRec := {
      symbol := pos1.symbol
      side := pos1.side
      qty := pos1.qty
      entry := pos1.entry
      exit := exit_px
      pnl := raw_pnl
      net_pnl := raw_pnl - fee_total
      leverage := pos1.leverage
      margin_usd := pos1.margin_usd
      notional_usd := pos1.notional_usd.getD (pos1.qty * pos1.entry)
      liq_price := pos1.liq_price
      fee_open_usd := pos1.fee_open_usd
      fee_close_usd := fee_close
      fee_total_usd := fee_total
      fee_currency := pos1.fee_currency
      fee_open_bnb := bnbFees.1
      fee_close_bnb := bnbFees.2.1
      fee_total_bnb := bnbFees.2.2
      open_ts := pos1.open_ts
      close_ts := some nowMs }
    .ok ({ b with
           positions := positions1
           closed_count := b.closed_count + 1
           last_closed := some record }, pos1)

/-- Liquidation trigger (paper.py lines 214-222). -/
def liq_triggered (pos : Position) (price : ℚ) : Bool :=
  match pos.liq_price with
  | none => false
  | some lq =>
    (pos.side == "long" && decide (price ≤ lq)) ||
    (pos.side == "short" && decide (lq ≤ price))

/-- Take-profit trigger (paper.py lines 225-231). -/
def tp_triggered (pos : Position) (price : ℚ) : Bool :=
  match pos.tp with
  | none => false
  | some t =>
    (pos.side == "long" && decide (t ≤ price)) ||
    (pos.side == "short" && decide (price ≤ t))

/-- Stop-loss trigger (paper.py lines 232-238). -/
def sl_triggered (pos : Position) (price : ℚ) : Bool :=
  match pos.stop with
  | none => false
  | some st =>
    (pos.side == "long" && decide (price ≤ st)) ||
    (pos.side == "short" && decide (st ≤ price))

/-- The in-place mutation mark_to_market applies to the stored Position
(paper.py lines 210-211): raw P&L recomputed from the current price, and
the last seen price updated. -/
def mtmUpdated (pos : Position) (price : ℚ) : Position :=
  { pos with
    pnl := pnl pos.side pos.entry price pos.qty
    last_price := some price }

/-- PaperBroker.mark_to_market (paper.py lines 204-238).  The in-place
mutation of the stored Position is modelled as a value replacement in the
positions map; the three trigger blocks each `close` at the current price
and return, so the first satisfied trigger wins.  The inner close cannot
fail (the position was just found); the error arm is unreachable. -/
def PaperBroker.mark_to_market (s : Settings) (b : PaperBroker) (symbol : String)
    (price : ℚ) (nowMs : ℤ) : PaperBroker :=
  let sym := (pyUpper symbol)
  match alookup sym b.positions with
  | none => b
  | some pos =>
    let pos1 := mtmUpdated pos price
    let newPositions := b.positions.map (fun kv => if kv.1 = sym then (sym, pos1) else kv)
    let b1 := { b with positions := newPositions }
    let doClose : PaperBroker :=
      match PaperBroker.close s b1 symbol price none nowMs with
      | .ok (b2, _) => b2
      | .error _ => b1
    if liq_triggered pos1 price then doClose
    else if tp_triggered pos1 price then doClose
    else if sl_triggered pos1 price then doClose
    else b1

/-! ### app/state.py — EmaCalc, SymbolState and the rolling metrics -/

/-- Bounded append that models collections.deque(maxlen=n).append: the
oldest entries are evicted from the left once the capacity is exceeded. -/
def pushBounded (maxlen : ℕ) (l : List α) (a : α) : List α :=
  let l1 := l ++ [a]
  if maxlen < l1.length then l1.drop (l1.length - maxlen) else l1

/-- EmaCalc (state.py lines 18-30). -/
structure EmaCalc where
  period : ℤ
  k : ℚ
  value : Option ℚ
deriving Repr, DecidableEq

/-- EmaCalc.__init__: period = int(max(1, period)), k = 2/(period+1). -/
def EmaCalc.init (period : ℤ) : EmaCalc :=
  let p := max 1 period
  { period := p, k := 2 / ((p : ℚ) + 1), value := none }

/-- EmaCalc.update: first call seeds value = price, then
value = price·k + value·(1−k).  Returns (new state, returned value). -/
def EmaCalc.update (e : EmaCalc) (price : ℚ) : EmaCalc × ℚ :=
  match e.value with
  | none => ({ e with value := some price }, price)
  | some v =>
    let v1 := price * e.k + v * (1 - e.k)
    ({ e with value := some v1 }, v1)

/-- One trade-buffer entry: (ts, price, qty, is_buy_aggr). -/
structure Trade where
  ts : ℤ
  price : ℚ
  qty : ℚ
  is_buy_aggr : Option Bool
deriving Repr, DecidableEq

/-- SymbolState (state.py lines 36-104): every mutable attribute set in
__init__ appears as a field. -/
structure SymbolState where
  symbol : String
  trades : List Trade
  trade_maxlen : ℕ
  depth_maxlen : ℕ
  last_price : Option ℚ
  last_qty : Option ℚ
  last_ts : Option ℤ
  ema_fast : EmaCalc
  ema_slow : EmaCalc
  best_bid : Option ℚ
  best_ask : Option ℚ
  bid_vol : ℚ
  ask_vol : ℚ
  depth_events : List (ℤ × ℚ × ℚ × ℚ × ℚ)
  rsi_period : ℤ
  rsi_gain : ℚ
  rsi_loss : ℚ
  rsi_value : Option ℚ
  prev_price : Option ℚ
  vol_60s : ℚ
  vol_ema_60s_10m : Option ℚ
  vol_ema_alpha : ℚ
  cvd_hist : List (ℤ × ℚ)
  cvd_10m : ℚ
  candle60_open : Option ℚ
  candle60_close : Option ℚ
  drop_candle : Bool
  swing_high : Option ℚ
  swing_low : Option ℚ
  dist_to_res : Option ℚ
  dist_to_sup : Option ℚ
deriving Repr, DecidableEq

/-- SymbolState.__init__ (state.py lines 47-104). -/
def SymbolState.init (symbol : String) (ema_fast_p ema_slow_p : ℤ)
    (trade_maxlen depth_maxlen : ℕ) : SymbolState where
  symbol := symbol
  trades := []
  trade_maxlen := trade_maxlen
  depth_maxlen := depth_maxlen
  last_price := none
  last_qty := none
  last_ts := none
  ema_fast := EmaCalc.init ema_fast_p
  ema_slow := EmaCalc.init ema_slow_p
  best_bid := none
  best_ask := none
  bid_vol := 0
  ask_vol := 0
  depth_events := []
  rsi_period := 14
  rsi_gain := 0
  rsi_loss := 0
  rsi_value := none
  prev_price := none
  vol_60s := 0
  vol_ema_60s_10m := none
  vol_ema_alpha := 2 / (10 + 1)
  cvd_hist := []
  cvd_10m := 0
  candle60_open := none
  candle60_close := none
  drop_candle := false
  swing_high := none
  swing_low := none
  dist_to_res := none
  dist_to_sup := none

/-- Python default construction SymbolState(sym): periods 5/20, buffer
capacities 6000/400. -/
def SymbolState.initDefault (symbol : String) : SymbolState :=
  SymbolState.init symbol 5 20 6000 400

/-- The RSI(14) Wilder-smoothing block of on_trade (state.py lines
122-139).  Returns (new avg gain, new avg loss, new rsi value); a no-op
when prev_price is unset. -/
def rsiStep (prev_price : Option ℚ) (period : ℤ) (g l : ℚ) (rv : Option ℚ)
    (p : ℚ) : ℚ × ℚ × Option ℚ :=
  match prev_price with
  | none => (g, l, rv)
  | some pp =>
    let change := p - pp
    let gain := max change 0
    let loss := max (-change) 0
    let seed := g = 0 ∧ l = 0
    let g1 := if seed then gain else (g * ((period : ℚ) - 1) + gain) / (period : ℚ)
    let l1 := if seed then loss else (l * ((period : ℚ) - 1) + loss) / (period : ℚ)
    let rv1 : Option ℚ :=
      if l1 = 0 then some 100
      else some (100 - 100 / (1 + g1 / l1))
    (g1, l1, rv1)

/-- SymbolState.on_trade (state.py lines 107-190).  Returns the new state
plus the pair of EMA values the Python method returns. -/
def SymbolState.on_trade (st : SymbolState) (price qty : ℚ) (ts : ℤ)
    (is_buy_aggr : Option Bool) : SymbolState × ℚ × ℚ :=
  let p := price
  let q := qty
  let t := ts
  let trades1 := pushBounded st.trade_maxlen st.trades
    { ts := t, price := p, qty := q, is_buy_aggr := is_buy_aggr }
  let emaF := st.ema_fast.update p
  let emaS := st.ema_slow.update p
  let r := rsiStep st.prev_price st.rsi_period st.rsi_gain st.rsi_loss st.rsi_value p
  -- Volume spike: sum the last 60s of quantities scanning the deque from
  -- the newest entry and stopping at the first older one.
  let cut60 := t - 60000
  let vol60 := ((trades1.reverse.takeWhile (fun tr => decide (cut60 ≤ tr.ts))).map
    Trade.qty).sum
  let volEma : ℚ :=
    match st.vol_ema_60s_10m with
    | none => vol60
    | some v => v * (1 - st.vol_ema_alpha) + vol60 * st.vol_ema_alpha
  -- CVD 10m: unknown aggressor contributes 0.
  let delta : ℚ := match is_buy_aggr with
    | some bAggr => if bAggr then q else -q
    | none => 0
  let cvdHist1 := pushBounded 12000 st.cvd_hist (t, delta)
  let cut10m := t - 600000
  let cvdHist2 := cvdHist1.dropWhile (fun e => decide (e.1 < cut10m))
  let cvdSum := ((cvdHist2.filter (fun e => decide (cut10m ≤ e.1))).map Prod.snd).sum
  -- 60s pseudo-candle.
  let last_px_60s := (trades1.filter (fun tr => decide (cut60 ≤ tr.ts))).map Trade.price
  let c60 : Option ℚ × Option ℚ × Bool :=
    if 2 ≤ last_px_60s.length then
      let o := last_px_60s.headI
      let cl := (last_px_60s.getLast?).getD 0
      (some o, some cl, cl < o)
    else (st.candle60_open, st.candle60_close, st.drop_candle)
  -- Simple S/R on the 3-minute window; `if self.last_price:` is a
  -- truthiness test on the price just stored, i.e. p ≠ 0.
  let cut3m := t - 180000
  let win := (trades1.filter (fun tr => decide (cut3m ≤ tr.ts))).map Trade.price
  let sr : Option ℚ × Option ℚ × Option ℚ × Option ℚ :=
    match win with
    | [] => (none, none, none, none)
    | w0 :: rest =>
      let hi := rest.foldl max w0
      let lo := rest.foldl min w0
      if p ≠ 0 then
        (some hi, some lo, some (|hi - p| / p), some (|p - lo| / p))
      else (some hi, some lo, st.dist_to_res, st.dist_to_sup)
  ({ st with
     last_price := some p
     last_qty := some q
     last_ts := some t
     trades := trades1
     ema_fast := emaF.1
     ema_slow := emaS.1
     rsi_gain := r.1
     rsi_loss := r.2.1
     rsi_value := r.2.2
     prev_price := some p
     vol_60s := vol60
     vol_ema_60s_10m := some volEma
     cvd_hist := cvdHist2
     cvd_10m := cvdSum
     candle60_open := c60.1
     candle60_close := c60.2.1
     drop_candle := c60.2.2
     swing_high := sr.1
     swing_low := sr.2.1
     dist_to_res := sr.2.2.1
     dist_to_sup := sr.2.2.2 }, emaF.2, emaS.2)

/-- SymbolState.on_depth_top (state.py lines 193-198). -/
def SymbolState.on_depth_top (st : SymbolState) (best_bid best_ask bid_vol ask_vol : ℚ)
    (ts : ℤ) : SymbolState :=
  { st with
    best_bid := some best_bid
    best_ask := some best_ask
    bid_vol := bid_vol
    ask_vol := ask_vol
    depth_events := pushBounded st.depth_maxlen st.depth_events
      (ts, best_bid, best_ask, bid_vol, ask_vol) }

/-- SymbolState.spread_bps (state.py lines 201-208).  Python truthiness:
`not best_bid` is true for None and 0, likewise for best_ask. -/
def SymbolState.spread_bps (st : SymbolState) : Option ℚ :=
  match st.best_bid, st.best_ask with
  | some bb, some ba =>
    if bb = 0 ∨ ba = 0 ∨ bb ≤ 0 then none
    else
      let mid := (ba + bb) / 2
      if mid ≤ 0 then none
      else some ((ba - bb) / mid * 10000)
  | _, _ => none

/-- SymbolState.imbalance (state.py lines 210-213). -/
def SymbolState.imbalance (st : SymbolState) : Option ℚ :=
  if st.bid_vol ≤ 0 ∨ st.ask_vol ≤ 0 then none
  else some (st.bid_vol / st.ask_vol)

/-- Window base used by the read-only metrics: `self.last_ts or now_ms()`
(truthiness: falls back to the wall clock when last_ts is None or 0). -/
def SymbolState.tsBase (st : SymbolState) (nowMs : ℤ) : ℤ :=
  match st.last_ts with
  | some t => if t ≠ 0 then t else nowMs
  | none => nowMs

/-- SymbolState.vwap (state.py lines 215-226): newest-to-oldest scan with
early exit at the first trade older than the cutoff. -/
def SymbolState.vwap (st : SymbolState) (window_ms nowMs : ℤ) : Option ℚ :=
  let cutoff := st.tsBase nowMs - window_ms
  let recent := st.trades.reverse.takeWhile (fun tr => decide (cutoff ≤ tr.ts))
  let num := (recent.map (fun tr => tr.price * tr.qty)).sum
  let den := (recent.map Trade.qty).sum
  if den ≤ 0 then none else some (num / den)

/-- SymbolState.atr_like (state.py lines 228-245). -/
def SymbolState.atr_like (st : SymbolState) (window_ms nowMs : ℤ) : Option ℚ :=
  let cutoff := st.tsBase nowMs - window_ms
  let px := (st.trades.filter (fun tr => decide (cutoff ≤ tr.ts))).map Trade.price
  if px.length < 5 then none
  else
    match px with
    | [] => none
    | p0 :: rest =>
      let hi := rest.foldl max p0
      let lo := rest.foldl min p0
      let tr := max (hi - lo) (max |hi - p0| |lo - p0|)
      match st.last_price with
      | some lp => if 0 < lp then some (tr / lp) else none
      | none => none

/-- SymbolState.tick_rate (state.py lines 247-250). -/
def SymbolState.tick_rate (st : SymbolState) (lookback_ms nowMs : ℤ) : ℚ :=
  let cutoff := st.tsBase nowMs - lookback_ms
  let n := (st.trades.filter (fun tr => decide (cutoff ≤ tr.ts))).length
  (n : ℚ) / ((lookback_ms : ℚ) / 1000)

/-- SymbolState.buy_pressure (state.py lines 252-264). -/
def SymbolState.buy_pressure (st : SymbolState) (lookback_ms nowMs : ℤ) : Option ℚ :=
  let cutoff := st.tsBase nowMs - lookback_ms
  let known := st.trades.filter
    (fun tr => decide (cutoff ≤ tr.ts) && tr.is_buy_aggr.isSome)
  let total := known.length
  let buy := (known.filter (fun tr => tr.is_buy_aggr.getD false)).length
  if total = 0 then none else some ((buy : ℚ) / (total : ℚ))

/-! ### app/binance_ws.py — decision engine and flip/cooldown controller -/

/-- The VWAP-deviation value _decide_side derives (binance_ws.py lines
92-95): SymbolState defines no vwap_dev_pct attribute, so the getattr
fallback None always applies and vdev is recomputed from vwap and the
last price when both are truthy (non-None and nonzero). -/
def vdevOf (s : Settings) (st : SymbolState) (nowMs : ℤ) : Option ℚ :=
  match st.vwap (s.VWAP_WINDOW_SEC * 1000) nowMs, st.last_price with
  | some v, some l => if v ≠ 0 ∧ l ≠ 0 then some (|l - v| / v) else none
  | _, _ => none

/-- BinanceWSClient._decide_side (binance_ws.py lines 78-152).

Attribute reads against SymbolState that the class does not define
resolve to the getattr fallback on every call:
  volsp  = getattr(st, "vol_spike_5s", None)  → always None, so the
           volume-spike conjunct is never evaluated;
  srpct  = getattr(st, "sr_dist_pct", None)   → always None, so the S/R
           proximity veto never fires;
  candle = getattr(st, "candle5_dir", None)   → always None, so the
           bull/bear overrides never fire.
cvd10 = getattr(st, "cvd_10m", None) resolves to the cvd_10m field, which
is a plain float (never None), so both `cvd10 is not None` guards pass.
tick_rate always returns a number, so only lp/ef/es/atr/spr can fail the
basics check.  Thresholds absent from Settings appear as the literal
getattr fallbacks: VWAP_DEV_MAX=0.002, RSI_LONG_MAX=65, IMB_LONG_MIN=1.0,
CVD_ABS_MIN=50, RSI_SHORT_MIN=75, IMB_SHORT_MAX=1.0,
VWAP_SHORT_MIN=0.0001, VWAP_SHORT_MAX=0.002. -/
def decide_side (s : Settings) (st : SymbolState) (nowMs : ℤ) : Option String :=
  let ef := st.ema_fast.value
  let es := st.ema_slow.value
  let atr := st.atr_like (s.ATR_WINDOW_SEC * 1000) nowMs
  let spr := st.spread_bps
  let tick := st.tick_rate 2000 nowMs
  let bp := st.buy_pressure 2000 nowMs
  let rsi := st.rsi_value
  let vdev := vdevOf s st nowMs
  let imb := st.imbalance
  let cvd10 := st.cvd_10m
  match st.last_price, ef, es, atr, spr with
  | some _, some efv, some esv, some atrv, some sprv =>
    if s.MAX_SPREAD_BPS < sprv then none
    else if ¬ (s.ATR_MIN ≤ atrv ∧ atrv ≤ s.ATR_MAX) then none
    else if tick < s.MIN_TICKS_PER_SEC then none
    else
      match vdev with
      | none => none
      | some vd =>
        if 2/1000 < vd then none
        else
          let long_ok0 : Bool :=
            decide (esv < efv) &&
            (match bp with
             | some b => decide (s.BUY_PRESSURE_MIN ≤ b)
             | none => false) &&
            (match rsi with
             | some r => decide (r ≤ 65)
             | none => true) &&
            (match imb with
             | some i => decide (1 ≤ i)
             | none => true)
          let long_ok1 := if cvd10 ≤ 50 then long_ok0 && decide (0 < cvd10) else long_ok0
          let sellp : Option ℚ := match bp with
            | some b => some (1 - b)
            | none => none
          let short_ok0 : Bool :=
            decide (efv < esv) &&
            (match sellp with
             | some sp1 => decide (s.BUY_PRESSURE_MIN ≤ sp1)
             | none => false) &&
            (match rsi with
             | some r => decide (75 ≤ r)
             | none => false) &&
            (match imb with
             | some i => decide (i ≤ 1)
             | none => true)
          let short_ok1 := short_ok0 && decide (1/10000 ≤ vd ∧ vd ≤ 2/1000)
          let short_ok2 := if -50 ≤ cvd10 then short_ok1 && decide (cvd10 < 0) else short_ok1
          if long_ok1 then some "long"
          else if short_ok2 then some "short"
          else none
  | _, _, _, _, _ => none

/-- Python round(x, 6): round half to even at six decimal places (applied
here to the exact rational value). -/
def round6 (x : ℚ) : ℚ :=
  let y := x * 1000000
  let f := ⌊y⌋
  let r := y - (f : ℚ)
  let n : ℤ :=
    if r < 1/2 then f
    else if 1/2 < r then f + 1
    else if f % 2 = 0 then f else f + 1
  (n : ℚ) / 1000000

/-- The dict returned by BinanceWSClient._calc_auto_params. -/
structure AutoParams where
  lev : ℤ
  margin : ℚ
  notional : ℚ
  qty : ℚ
  tp : ℚ
  sl : ℚ
  tp_d : ℚ
  sl_d : ℚ
deriving Repr, DecidableEq

/-- BinanceWSClient._calc_auto_params (binance_ws.py lines 157-185).
AUTO_LEVERAGE, AUTO_MARGIN_USD, AUTO_NOTIONAL_USD, AUTO_ABS_TP_USD and
AUTO_ABS_SL_USD all exist on Settings, so the getattr defaults written at
the call sites are dead. -/
def calc_auto_params (s : Settings) (_sym side : String) (entry_price : ℚ) : AutoParams :=
  let lev := s.AUTO_LEVERAGE
  let margin := s.AUTO_MARGIN_USD
  let notional := s.AUTO_NOTIONAL_USD
  let qty := max (1 / 100000000) (round6 (notional / entry_price))
  let tp_d := s.AUTO_ABS_TP_USD
  let sl_d := s.AUTO_ABS_SL_USD
  let delta_tp := tp_d / qty
  let delta_sl := sl_d / qty
  if side = "long" then
    { lev := lev, margin := margin, notional := notional, qty := qty
      tp := entry_price + delta_tp, sl := entry_price - delta_sl
      tp_d := tp_d, sl_d := sl_d }
  else
    { lev := lev, margin := margin, notional := notional, qty := qty
      tp := entry_price - delta_tp, sl := entry_price + delta_sl
      tp_d := tp_d, sl_d := sl_d }

/-- One flip_buffer entry: the dict {"want": side, "count": n}. -/
structure FlipEntry where
  want : String
  count : ℤ
deriving Repr, DecidableEq

/-- The BinanceWSClient state the controller mutates: the paper broker,
the per-symbol signal cooldown timestamps, and the flip buffer. -/
structure WSClient where
  paper : PaperBroker
  signal_cooldown : List (String × ℤ)
  flip_buffer : List (String × FlipEntry)
deriving Repr, DecidableEq

/-- BinanceWSClient._open_auto (binance_ws.py lines 187-209).
SIGNAL_COOLDOWN_MS is absent from Settings, so the getattr fallback 3000
always applies.  A failed PaperBroker.open is caught and logged, leaving
the client state unchanged. -/
def open_auto (s : Settings) (c : WSClient) (sym side : String) (price : ℚ)
    (ts : ℤ) : WSClient :=
  let last := (alookup sym c.signal_cooldown).getD 0
  if ts - last < 3000 then c
  else if (alookup sym c.paper.positions).isSome then c
  else
    let prm := calc_auto_params s sym side price
    match PaperBroker.open_ s c.paper sym side prm.qty price (some prm.sl) (some prm.tp)
        (some prm.lev) (some prm.margin) (some s.MAINT_MARGIN_RATE) none ts with
    | .ok (b1, _) =>
      { c with paper := b1, signal_cooldown := upsert c.signal_cooldown sym ts }
    | .error _ => c

/-- BinanceWSClient._maybe_flip (binance_ws.py lines 211-240).  The flip
confirmation threshold is the literal 2 in the source.  A failed close is
caught: the flip buffer entry is dropped and the state is otherwise
unchanged. -/
def maybe_flip (s : Settings) (c : WSClient) (sym : String) (decision : Option String)
    (price : ℚ) (ts : ℤ) : WSClient :=
  match alookup sym c.paper.positions, decision with
  | none, none => c
  | none, some d => open_auto s c sym d price ts
  | some _, none => c
  | some pos, some d =>
    let opposite := if pos.side = "long" then "short" else "long"
    if d ≠ opposite then { c with flip_buffer := eraseKey c.flip_buffer sym }
    else
      let fb0 := (alookup sym c.flip_buffer).getD { want := opposite, count := 0 }
      let fb1 : FlipEntry :=
        if fb0.want ≠ opposite then { want := opposite, count := 0 } else fb0
      let fb2 : FlipEntry := { fb1 with count := fb1.count + 1 }
      let c1 := { c with flip_buffer := upsert c.flip_buffer sym fb2 }
      if 2 ≤ fb2.count then
        match PaperBroker.close s c1.paper sym price none ts with
        | .error _ => { c1 with flip_buffer := eraseKey c1.flip_buffer sym }
        | .ok (b1, _) =>
          let c2 := { c1 with paper := b1 }
          let c3 := open_auto s c2 sym opposite price ts
          { c3 with flip_buffer := eraseKey c3.flip_buffer sym }
      else c1

/-! ### Characterization lemmas for the broker operations -/

theorem keys_map_replace (sym : String) (v : α) (l : List (String × α)) :
    (l.map (fun kv => if kv.1 = sym then (sym, v) else kv)).map Prod.fst =
      l.map Prod.fst := by
  induction l with
  | nil => rfl
  | cons kv rest ih =>
    by_cases hk : kv.1 = sym
    · simp [hk, ih]
    · simp [hk, ih]

theorem open_err_dup {s : Settings} {b : PaperBroker} {symbol side : String}
    {qty price : ℚ} {stop tp : Option ℚ} {lev : Option ℤ}
    {margin mmr notional : Option ℚ} {nowMs : ℤ}
    (hdup : (alookup (pyUpper symbol) b.positions).isSome) :
    PaperBroker.open_ s b symbol side qty price stop tp lev margin mmr notional nowMs
      = .error (.alreadyOpen symbol) := by
  unfold PaperBroker.open_
  rw [if_pos hdup]

theorem open_err_max {s : Settings} {b : PaperBroker} {symbol side : String}
    {qty price : ℚ} {stop tp : Option ℚ} {lev : Option ℤ}
    {margin mmr notional : Option ℚ} {nowMs : ℤ}
    (hfree : alookup (pyUpper symbol) b.positions = none)
    (hfull : b.max_positions ≤ b.positions.length) :
    PaperBroker.open_ s b symbol side qty price stop tp lev margin mmr notional nowMs
      = .error .maxPositionsReached := by
  unfold PaperBroker.open_
  rw [hfree]
  rw [if_neg (by simp), if_pos hfull]

theorem open_spec (s : Settings) {b : PaperBroker} {symbol : String} (side : String)
    (qty price : ℚ) (stop tp : Option ℚ) (lev : Option ℤ)
    (margin mmr notional : Option ℚ) (nowMs : ℤ)
    (hfree : alookup (pyUpper symbol) b.positions = none)
    (hcap : b.positions.length < b.max_positions) :
    ∃ b1 p, PaperBroker.open_ s b symbol side qty price stop tp lev margin mmr notional nowMs
        = .ok (b1, p) ∧
      b1.positions = b.positions ++ [((pyUpper symbol), p)] ∧
      b1.max_positions = b.max_positions ∧
      b1.closed_count = b.closed_count ∧
      b1.last_closed = b.last_closed ∧
      p.symbol = (pyUpper symbol) ∧ p.side = side ∧ p.qty = qty ∧ p.entry = price ∧
      p.stop = stop ∧ p.tp = tp ∧ p.leverage = lev ∧ p.margin_usd = margin ∧
      p.maint_margin_rate = mmr ∧ p.exit_price = none ∧
      p.liq_price = approx_liq_price side price lev mmr ∧
      p.notional_usd = some (openNotional qty price lev margin notional) ∧
      p.fee_open_usd = openNotional qty price lev margin notional * fee_rate_effective s true := by
  unfold PaperBroker.open_
  rw [hfree]
  rw [if_neg (by simp), if_neg (by omega)]
  exact ⟨_, _, rfl, rfl, rfl, rfl, rfl, rfl, rfl, rfl, rfl, rfl, rfl, rfl, rfl, rfl, rfl, rfl,
    rfl, rfl⟩

theorem close_spec (s : Settings) {b : PaperBroker} {symbol : String} (price : ℚ)
    (bnb : Option ℚ) (nowMs : ℤ) {pos0 : Position}
    (h : alookup (pyUpper symbol) b.positions = some pos0) :
    ∃ b1 p1, PaperBroker.close s b symbol price bnb nowMs = .ok (b1, p1) ∧
      b1.positions = eraseKey b.positions (pyUpper symbol) ∧
      b1.max_positions = b.max_positions ∧
      b1.closed_count = b.closed_count + 1 ∧
      p1.symbol = pos0.symbol ∧ p1.side = pos0.side ∧ p1.qty = pos0.qty ∧
      p1.entry = pos0.entry ∧
      p1.pnl = pnl pos0.side pos0.entry price pos0.qty ∧
      p1.exit_price = some price ∧
      p1.fee_open_usd = pos0.fee_open_usd ∧
      p1.fee_close_usd = (price * pos0.qty) * fee_rate_effective s false ∧
      p1.fee_total_usd = pos0.fee_open_usd + (price * pos0.qty) * fee_rate_effective s false ∧
      p1.liq_price = pos0.liq_price ∧
      ∃ record, b1.last_closed = some record ∧
        record.symbol = pos0.symbol ∧ record.side = pos0.side ∧
        record.qty = pos0.qty ∧ record.entry = pos0.entry ∧ record.exit = price ∧
        record.pnl = pnl pos0.side pos0.entry price pos0.qty ∧
        record.net_pnl = record.pnl - p1.fee_total_usd ∧
        record.fee_open_usd = pos0.fee_open_usd ∧
        record.fee_close_usd = p1.fee_close_usd ∧
        record.fee_total_usd = p1.fee_total_usd ∧
        record.liq_price = pos0.liq_price ∧
        record.close_ts = some nowMs := by
  unfold PaperBroker.close
  simp only [h]
  exact ⟨_, _, rfl, rfl, rfl, rfl, rfl, rfl, rfl, rfl, rfl, rfl, rfl, rfl, rfl, rfl,
    ⟨_, rfl, rfl, rfl, rfl, rfl, rfl, rfl, rfl, rfl, rfl, rfl, rfl, rfl⟩⟩

/-! ### Concrete states used by the witnesses -/

/-- An empty paper broker with the default position cap. -/
def emptyBroker : PaperBroker :=
  { max_positions := 10, positions := [], closed_count := 0, last_closed := none }

/-- A concrete open long position on BTCUSDT. -/
def posLong : Position :=
  { symbol := "BTCUSDT", side := "long", qty := 2, entry := 100
    stop := some 90, tp := some 120
    leverage := some 10, margin_usd := some 1000, notional_usd := some 10000
    maint_margin_rate := some (4/1000), liq_price := some (452/5)
    fee_open_usd := 4 }

/-- A broker holding exactly the BTCUSDT long position. -/
def brokerOne : PaperBroker :=
  { max_positions := 10, positions := [("BTCUSDT", posLong)]
    closed_count := 0, last_closed := none }

/-! ### Claim theorems -/

/-- C1: PaperBroker.open reports a typed error when a position already exists
for the symbol or when the number of open positions has reached the configured
maximum; in either failure case no state is produced, so the positions map is
unchanged; and a successful open requires the symbol to be free and extends
the map by exactly the one new entry, preserving distinctness of the stored
symbols (at most one open position per symbol). -/
theorem C1_open_validation (s : Settings) (b : PaperBroker) (symbol side : String)
    (qty price : ℚ) (stop tp : Option ℚ) (lev : Option ℤ)
    (margin mmr notional : Option ℚ) (nowMs : ℤ) :
    ((alookup (pyUpper symbol) b.positions).isSome →
      PaperBroker.open_ s b symbol side qty price stop tp lev margin mmr notional nowMs
        = .error (.alreadyOpen symbol)) ∧
    (alookup (pyUpper symbol) b.positions = none →
      b.max_positions ≤ b.positions.length →
      PaperBroker.open_ s b symbol side qty price stop tp lev margin mmr notional nowMs
        = .error .maxPositionsReached) ∧
    (∀ b1 p, PaperBroker.open_ s b symbol side qty price stop tp lev margin mmr notional nowMs
        = .ok (b1, p) →
      alookup (pyUpper symbol) b.positions = none ∧
      b1.positions = b.positions ++ [((pyUpper symbol), p)] ∧
      ((b.positions.map Prod.fst).Nodup → (b1.positions.map Prod.fst).Nodup)) := by
  refine ⟨fun hdup => open_err_dup hdup, fun hfree hfull => open_err_max hfree hfull, ?_⟩
  intro b1 p hok
  by_cases hdup : (alookup (pyUpper symbol) b.positions).isSome
  · rw [open_err_dup hdup] at hok
    exact absurd hok (by simp)
  · have hfree : alookup (pyUpper symbol) b.positions = none :=
      Option.not_isSome_iff_eq_none.mp hdup
    by_cases hcap : b.positions.length < b.max_positions
    · refine ⟨hfree, ?_⟩
      unfold PaperBroker.open_ at hok
      rw [hfree] at hok
      rw [if_neg (by simp), if_neg (by omega)] at hok
      simp only [Except.ok.injEq, Prod.mk.injEq] at hok
      obtain ⟨hb, hp⟩ := hok
      subst hp
      constructor
      · rw [← hb]
      · intro hnd
        rw [← hb]
        exact nodup_append_single hfree hnd
    · rw [open_err_max hfree (by omega)] at hok
      exact absurd hok (by simp)

/-- C1 witness: opening BTCUSDT on a broker that already holds a BTCUSDT
position yields the typed already-open error. -/
theorem C1_open_validation_witness :
    PaperBroker.open_ defaultSettings brokerOne "BTCUSDT" "short" 1 100 none none
      none none none none 0 = .error (.alreadyOpen "BTCUSDT") :=
  (C1_open_validation defaultSettings brokerOne "BTCUSDT" "short" 1 100 none none
    none none none none 0).1 (by decide)

/-- C9 counterexample: open with qty = −1 on an empty broker (symbol free,
capacity available) does not report an invalid-quantity error: it succeeds
and stores one position whose quantity is −1. -/
theorem C9_open_negative_qty_cex :
    ((PaperBroker.open_ defaultSettings emptyBroker "BTCUSDT" "long" (-1) 100
        none none none none none none 0).toOption.map
      (fun r => (r.1.positions.length, r.2.qty))) = some (1, -1) := by decide

/-- C9 amended: PaperBroker.open performs no quantity validation.  Whenever
the symbol is free and the position cap is not reached, a call with qty ≤ 0
succeeds and stores a position carrying that non-positive quantity, so the
engine does not enforce the quantity > 0 invariant at open time. -/
theorem C9_open_accepts_nonpositive_qty (s : Settings) (b : PaperBroker)
    (symbol side : String) (qty price : ℚ) (stop tp : Option ℚ) (lev : Option ℤ)
    (margin mmr notional : Option ℚ) (nowMs : ℤ)
    (hq : qty ≤ 0) (hfree : alookup (pyUpper symbol) b.positions = none)
    (hcap : b.positions.length < b.max_positions) :
    ∃ b1 p, PaperBroker.open_ s b symbol side qty price stop tp lev margin mmr notional nowMs
        = .ok (b1, p) ∧ p.qty = qty ∧ p.qty ≤ 0 ∧
      b1.positions = b.positions ++ [((pyUpper symbol), p)] := by
  obtain ⟨b1, p, heq, hpos, -, -, -, -, -, hqty, -, -, -, -, -, -, -, -, -, -⟩ :=
    open_spec s side qty price stop tp lev margin mmr notional nowMs hfree hcap
  exact ⟨b1, p, heq, hqty, by rw [hqty]; exact hq, hpos⟩

/-- C9 witness for the amended claim: qty = 0 on an empty broker. -/
theorem C9_witness :
    ∃ b1 p, PaperBroker.open_ defaultSettings emptyBroker "ETHUSDT" "short" 0 50
        none none none none none none 0 = .ok (b1, p) ∧ p.qty = 0 ∧ p.qty ≤ 0 ∧
      b1.positions = emptyBroker.positions ++ [((pyUpper "ETHUSDT"), p)] :=
  C9_open_accepts_nonpositive_qty defaultSettings emptyBroker "ETHUSDT" "short" 0 50
    none none none none none none 0 (le_refl 0) (by decide) (by decide)

/-- C10: mark_to_market on a symbol with no open position silently returns the
broker unchanged (positions, closed_count, last_closed all intact), while
close in the same situation reports the typed no-open-position error. -/
theorem C10_mtm_no_position (s : Settings) (b : PaperBroker) (symbol : String)
    (price : ℚ) (bnb : Option ℚ) (nowMs : ℤ)
    (h : alookup (pyUpper symbol) b.positions = none) :
    PaperBroker.mark_to_market s b symbol price nowMs = b ∧
    PaperBroker.close s b symbol price bnb nowMs = .error .noOpenPosition := by
  constructor
  · unfold PaperBroker.mark_to_market
    simp only [h]
  · unfold PaperBroker.close
    simp only [h]

/-- C10 witness: marking an unknown symbol on the one-position broker is a
silent no-op and closing it errors. -/
theorem C10_witness :
    PaperBroker.mark_to_market defaultSettings brokerOne "ETHUSDT" 42 0 = brokerOne ∧
    PaperBroker.close defaultSettings brokerOne "ETHUSDT" 42 none 0
      = .error .noOpenPosition :=
  C10_mtm_no_position defaultSettings brokerOne "ETHUSDT" 42 none 0 (by decide)

theorem approx_liq_price_long {entry m : ℚ} {lev : ℤ} (hl : 0 < lev) (he : 0 < entry) :
    approx_liq_price "long" entry (some lev) (some m)
      = some (entry * (1 - 1 / (lev : ℚ) + m)) := by
  unfold approx_liq_price
  simp only [Option.getD_some]
  rw [if_neg (by push_neg; exact ⟨hl, he⟩)]
  simp

theorem approx_liq_price_short {entry m : ℚ} {lev : ℤ} (hl : 0 < lev) (he : 0 < entry) :
    approx_liq_price "short" entry (some lev) (some m)
      = some (entry * (1 + 1 / (lev : ℚ) - m)) := by
  unfold approx_liq_price
  simp only [Option.getD_some]
  rw [if_neg (by push_neg; exact ⟨hl, he⟩), if_neg (by decide)]

/-- Every position present after a mark_to_market call keeps the
liquidation price it had before the call: mark_to_market only rewrites
pnl/last_price in place and possibly erases the closed entry. -/
theorem mtm_liq_preserved {s : Settings} {b : PaperBroker} {symbol : String}
    {price : ℚ} {nowMs : ℤ} {kv : String × Position}
    (hmem : kv ∈ (PaperBroker.mark_to_market s b symbol price nowMs).positions) :
    ∃ kv0, kv0 ∈ b.positions ∧ kv0.1 = kv.1 ∧ kv0.2.liq_price = kv.2.liq_price := by
  unfold PaperBroker.mark_to_market at hmem
  cases hl : alookup (pyUpper symbol) b.positions with
  | none =>
    simp only [hl] at hmem
    exact ⟨kv, hmem, rfl, rfl⟩
  | some pos =>
    simp only [hl] at hmem
    have hmapped : ∀ kv1 : String × Position,
        kv1 ∈ b.positions.map (fun e : String × Position =>
          if e.1 = pyUpper symbol then (pyUpper symbol, mtmUpdated pos price) else e) →
        ∃ kv0, kv0 ∈ b.positions ∧ kv0.1 = kv1.1 ∧ kv0.2.liq_price = kv1.2.liq_price := by
      intro kv1 h1
      rcases mem_map_replace h1 with h2 | h2
      · subst h2
        exact ⟨(pyUpper symbol, pos), mem_of_alookup_eq_some hl, rfl, rfl⟩
      · exact ⟨kv1, h2, rfl, rfl⟩
    have hclose : ∀ kv1 : String × Position,
        kv1 ∈ (match PaperBroker.close s
            { b with positions := b.positions.map (fun e : String × Position =>
                if e.1 = pyUpper symbol then (pyUpper symbol, mtmUpdated pos price) else e) }
            symbol price none nowMs with
          | .ok (b2, _) => b2
          | .error _ =>
            { b with positions := b.positions.map (fun e : String × Position =>
                if e.1 = pyUpper symbol then (pyUpper symbol, mtmUpdated pos price) else e) }).positions →
        ∃ kv0, kv0 ∈ b.positions ∧ kv0.1 = kv1.1 ∧ kv0.2.liq_price = kv1.2.liq_price := by
      intro kv1 h1
      have hlook : alookup (pyUpper symbol)
          (PaperBroker.mk b.max_positions
            (b.positions.map (fun e : String × Position =>
              if e.1 = pyUpper symbol then (pyUpper symbol, mtmUpdated pos price) else e))
            b.closed_count b.last_closed).positions
          = some (mtmUpdated pos price) := by
        show alookup (pyUpper symbol)
          (b.positions.map (fun e : String × Position =>
            if e.1 = pyUpper symbol then (pyUpper symbol, mtmUpdated pos price) else e))
          = some (mtmUpdated pos price)
        rw [alookup_map_replace, hl]
        rfl
      obtain ⟨b2, p2, hceq, hbpos, -⟩ := close_spec s price none nowMs hlook
      rw [show ({ b with positions := b.positions.map (fun e : String × Position =>
            if e.1 = pyUpper symbol then (pyUpper symbol, mtmUpdated pos price) else e) }
          : PaperBroker)
        = PaperBroker.mk b.max_positions
            (b.positions.map (fun e : String × Position =>
              if e.1 = pyUpper symbol then (pyUpper symbol, mtmUpdated pos price) else e))
            b.closed_count b.last_closed from rfl, hceq] at h1
      rw [hbpos] at h1
      exact hmapped kv1 (mem_of_mem_eraseKey h1)
    split at hmem
    · exact hclose kv hmem
    · split at hmem
      · exact hclose kv hmem
      · split at hmem
        · exact hclose kv hmem
        · exact hmapped kv hmem

/-- C4: the liquidation price is computed once at open time — as
entry·(1 − 1/leverage + mmr) for a long and entry·(1 + 1/leverage − mmr)
for a short, in particular 90.4 and 109.6 on entry=100, leverage=10,
mmr=0.004 — it is stored in the opened position, and mark_to_market never
changes the stored liquidation price of any position that remains open. -/
theorem C4_liquidation_price :
    (∀ (entry m : ℚ) (lev : ℤ), 0 < lev → 0 < entry →
      approx_liq_price "long" entry (some lev) (some m)
          = some (entry * (1 - 1 / (lev : ℚ) + m)) ∧
      approx_liq_price "short" entry (some lev) (some m)
          = some (entry * (1 + 1 / (lev : ℚ) - m))) ∧
    approx_liq_price "long" 100 (some 10) (some (4/1000)) = some (452/5) ∧
    approx_liq_price "short" 100 (some 10) (some (4/1000)) = some (548/5) ∧
    (∀ (s : Settings) (b : PaperBroker) (symbol side : String) (qty price : ℚ)
        (stop tp : Option ℚ) (lev : Option ℤ) (margin mmr notional : Option ℚ)
        (nowMs : ℤ) (b1 : PaperBroker) (p : Position),
      PaperBroker.open_ s b symbol side qty price stop tp lev margin mmr notional nowMs
        = .ok (b1, p) → p.liq_price = approx_liq_price side price lev mmr) ∧
    (∀ (s : Settings) (b : PaperBroker) (symbol : String) (price : ℚ) (nowMs : ℤ)
        (kv : String × Position),
      kv ∈ (PaperBroker.mark_to_market s b symbol price nowMs).positions →
      ∃ kv0, kv0 ∈ b.positions ∧ kv0.1 = kv.1 ∧ kv0.2.liq_price = kv.2.liq_price) := by
  refine ⟨fun entry m lev hl he =>
      ⟨approx_liq_price_long hl he, approx_liq_price_short hl he⟩, ?_, ?_, ?_,
    fun s b symbol price nowMs kv hmem => mtm_liq_preserved hmem⟩
  · rw [approx_liq_price_long (by norm_num) (by norm_num)]
    norm_num
  · rw [approx_liq_price_short (by norm_num) (by norm_num)]
    norm_num
  intro s b symbol side qty price stop tp lev margin mmr notional nowMs b1 p hok
  by_cases hdup : (alookup (pyUpper symbol) b.positions).isSome
  · rw [open_err_dup hdup] at hok
    exact absurd hok (by simp)
  · have hfree : alookup (pyUpper symbol) b.positions = none :=
      Option.not_isSome_iff_eq_none.mp hdup
    by_cases hcap : b.positions.length < b.max_positions
    · obtain ⟨b2, p2, heq, h01, h02, h03, h04, h05, h06, h07, h08, h09, h10, h11, h12,
        h13, h14, h15, h16, h17⟩ :=
        open_spec s side qty price stop tp lev margin mmr notional nowMs hfree hcap
      rw [heq] at hok
      simp only [Except.ok.injEq, Prod.mk.injEq] at hok
      rw [← hok.2]
      exact h15
    · rw [open_err_max hfree (by omega)] at hok
      exact absurd hok (by simp)

/-- C4 witness: the liquidation formula at entry=100, leverage=10,
mmr=0.004 and its storage by a concrete open. -/
theorem C4_witness :
    approx_liq_price "long" 100 (some 10) (some (4/1000))
        = some (100 * (1 - 1 / (10 : ℚ) + 4/1000)) ∧
    approx_liq_price "short" 100 (some 10) (some (4/1000))
        = some (100 * (1 + 1 / (10 : ℚ) - 4/1000)) :=
  C4_liquidation_price.1 100 (4/1000) 10 (by decide) (by decide)

/-- C5: close computes the closing fee as (exitPrice × quantity) ×
effectiveFeeRate, the total fee as opening fee + closing fee, and the net
P&L in the emitted record as raw P&L − total fee; with effective rate
0.0004, a 10,000 close notional costs 4.0, and together with a 4.0 opening
fee (10,000 opening notional) the net P&L is raw P&L − 8.0; an open whose
notional is 10,000 at rate 0.0004 is charged an opening fee of 4.0. -/
theorem C5_close_fees (s : Settings) (b : PaperBroker) (symbol : String)
    (price : ℚ) (bnb : Option ℚ) (nowMs : ℤ) (pos0 : Position)
    (h : alookup (pyUpper symbol) b.positions = some pos0) :
    (∃ b1 p1 record, PaperBroker.close s b symbol price bnb nowMs = .ok (b1, p1) ∧
      p1.fee_close_usd = (price * pos0.qty) * fee_rate_effective s false ∧
      p1.fee_total_usd = pos0.fee_open_usd + p1.fee_close_usd ∧
      b1.last_closed = some record ∧
      record.pnl = pnl pos0.side pos0.entry price pos0.qty ∧
      record.net_pnl = record.pnl - p1.fee_total_usd ∧
      (fee_rate_effective s false = 4/10000 → price * pos0.qty = 10000 →
        p1.fee_close_usd = 4 ∧
        (pos0.fee_open_usd = 4 → p1.fee_total_usd = 8 ∧
          record.net_pnl = record.pnl - 8))) ∧
    (∀ (b2 : PaperBroker) (qty2 price2 : ℚ) (stop tp : Option ℚ) (lev : Option ℤ)
        (margin mmr notional : Option ℚ) (nowMs2 : ℤ) (b3 : PaperBroker) (p3 : Position),
      PaperBroker.open_ s b2 symbol "long" qty2 price2 stop tp lev margin mmr notional nowMs2
        = .ok (b3, p3) →
      openNotional qty2 price2 lev margin notional = 10000 →
      fee_rate_effective s true = 4/10000 → p3.fee_open_usd = 4) := by
  constructor
  · obtain ⟨b1, p1, hceq, h01, h02, h03, h04, h05, h06, h07, h08, h09, h10, hfc, htot, h11,
      record, hlast, r01, r02, r03, r04, r05, hpnl, hnet, r06, r07, r08, r09, r10⟩ :=
      close_spec s price bnb nowMs h
    refine ⟨b1, p1, record, hceq, hfc, by rw [htot, hfc], hlast, hpnl, hnet, ?_⟩
    intro hrate hpq
    have hfc4 : p1.fee_close_usd = 4 := by
      rw [hfc, hpq, hrate]
      norm_num
    refine ⟨hfc4, fun hopen4 => ?_⟩
    have htot8 : p1.fee_total_usd = 8 := by
      rw [htot, hpq, hrate, hopen4]
      norm_num
    exact ⟨htot8, by rw [hnet, htot8]⟩
  · intro b2 qty2 price2 stop tp lev margin mmr notional nowMs2 b3 p3 hok hnot hrate
    by_cases hdup : (alookup (pyUpper symbol) b2.positions).isSome
    · rw [open_err_dup hdup] at hok
      exact absurd hok (by simp)
    · have hfree : alookup (pyUpper symbol) b2.positions = none :=
        Option.not_isSome_iff_eq_none.mp hdup
      by_cases hcap : b2.positions.length < b2.max_positions
      · obtain ⟨b4, p4, heq, h01, h02, h03, h04, h05, h06, h07, h08, h09, h10, h11, h12,
          h13, h14, h15, h16, hfee⟩ :=
          open_spec s "long" qty2 price2 stop tp lev margin mmr notional nowMs2 hfree hcap
        rw [heq] at hok
        simp only [Except.ok.injEq, Prod.mk.injEq] at hok
        rw [← hok.2, hfee, hnot, hrate]
        norm_num
      · rw [open_err_max hfree (by omega)] at hok
        exact absurd hok (by simp)

/-- C5 witness: closing the BTCUSDT long (qty 2, opening fee 4) at price
5000 under the default taker fee rate. -/
theorem C5_witness :
    (∃ b1 p1 record, PaperBroker.close defaultSettings brokerOne "BTCUSDT" 5000 none 0
        = .ok (b1, p1) ∧
      p1.fee_close_usd = (5000 * posLong.qty) * fee_rate_effective defaultSettings false ∧
      p1.fee_total_usd = posLong.fee_open_usd + p1.fee_close_usd ∧
      b1.last_closed = some record ∧
      record.pnl = pnl posLong.side posLong.entry 5000 posLong.qty ∧
      record.net_pnl = record.pnl - p1.fee_total_usd ∧
      (fee_rate_effective defaultSettings false = 4/10000 → 5000 * posLong.qty = 10000 →
        p1.fee_close_usd = 4 ∧
        (posLong.fee_open_usd = 4 → p1.fee_total_usd = 8 ∧
          record.net_pnl = record.pnl - 8))) ∧
    (∀ (b2 : PaperBroker) (qty2 price2 : ℚ) (stop tp : Option ℚ) (lev : Option ℤ)
        (margin mmr notional : Option ℚ) (nowMs2 : ℤ) (b3 : PaperBroker) (p3 : Position),
      PaperBroker.open_ defaultSettings b2 "BTCUSDT" "long" qty2 price2 stop tp lev margin
          mmr notional nowMs2 = .ok (b3, p3) →
      openNotional qty2 price2 lev margin notional = 10000 →
      fee_rate_effective defaultSettings true = 4/10000 → p3.fee_open_usd = 4) :=
  C5_close_fees defaultSettings brokerOne "BTCUSDT" 5000 none 0 posLong
    (by rw [show pyUpper "BTCUSDT" = "BTCUSDT" from by decide]; rfl)

/-- C2: mark_to_market recomputes the raw P&L as (price − entry)·qty for a
long and (entry − price)·qty for a short and stores the current price on the
position; it then checks the triggers in the order liquidation →
take-profit → stop-loss: when none fires the updated position stays in the
map and nothing is closed; when any fires, the result is exactly one
automatic close at the current price — the position is removed, the closed
counter is incremented once, and the emitted record carries the current
price as exit. -/
theorem C2_mark_to_market (s : Settings) (b : PaperBroker) (symbol : String)
    (price : ℚ) (nowMs : ℤ) (pos : Position)
    (h : alookup (pyUpper symbol) b.positions = some pos)
    (hnd : (b.positions.map Prod.fst).Nodup) :
    (mtmUpdated pos price).pnl
        = (if pos.side = "long" then (price - pos.entry) * pos.qty
           else (pos.entry - price) * pos.qty) ∧
    (mtmUpdated pos price).last_price = some price ∧
    (liq_triggered (mtmUpdated pos price) price = false →
     tp_triggered (mtmUpdated pos price) price = false →
     sl_triggered (mtmUpdated pos price) price = false →
      alookup (pyUpper symbol) (PaperBroker.mark_to_market s b symbol price nowMs).positions
        = some (mtmUpdated pos price) ∧
      (PaperBroker.mark_to_market s b symbol price nowMs).closed_count = b.closed_count ∧
      (PaperBroker.mark_to_market s b symbol price nowMs).last_closed = b.last_closed) ∧
    ((liq_triggered (mtmUpdated pos price) price
        || tp_triggered (mtmUpdated pos price) price
        || sl_triggered (mtmUpdated pos price) price) = true →
      alookup (pyUpper symbol) (PaperBroker.mark_to_market s b symbol price nowMs).positions
        = none ∧
      (PaperBroker.mark_to_market s b symbol price nowMs).closed_count
        = b.closed_count + 1 ∧
      ∃ record, (PaperBroker.mark_to_market s b symbol price nowMs).last_closed
          = some record ∧
        record.exit = price ∧ record.side = pos.side ∧
        record.pnl = pnl pos.side pos.entry price pos.qty) := by
  have hlook : alookup (pyUpper symbol)
      (PaperBroker.mk b.max_positions
        (b.positions.map (fun e : String × Position =>
          if e.1 = pyUpper symbol then (pyUpper symbol, mtmUpdated pos price) else e))
        b.closed_count b.last_closed).positions
      = some (mtmUpdated pos price) := by
    show alookup (pyUpper symbol)
      (b.positions.map (fun e : String × Position =>
        if e.1 = pyUpper symbol then (pyUpper symbol, mtmUpdated pos price) else e))
      = some (mtmUpdated pos price)
    rw [alookup_map_replace, h]
    rfl
  obtain ⟨b2, p2, hceq, hbpos, hbmax, hbcnt, c05, c06, c07, c08, c09, c10, c11, c12, c13, c14,
    record, hlast, r01, r02, r03, r04, r05, r06, r07, r08, r09, r10, r11, r12⟩ :=
    close_spec s price none nowMs hlook
  have hdo :
      alookup (pyUpper symbol) b2.positions = none ∧
      b2.closed_count = b.closed_count + 1 ∧
      ∃ record, b2.last_closed = some record ∧
        record.exit = price ∧ record.side = pos.side ∧
        record.pnl = pnl pos.side pos.entry price pos.qty := by
    refine ⟨?_, ?_, record, hlast, r05, r02, r06⟩
    · rw [hbpos]
      refine alookup_eraseKey_self ?_
      show ((b.positions.map (fun e : String × Position =>
        if e.1 = pyUpper symbol then (pyUpper symbol, mtmUpdated pos price) else e)).map
          Prod.fst).Nodup
      rw [keys_map_replace]
      exact hnd
    · rw [hbcnt]
  refine ⟨rfl, rfl, ?_, ?_⟩
  · intro hliq htp hsl
    unfold PaperBroker.mark_to_market
    simp only [h, hliq, htp, hsl, Bool.false_eq_true, if_false]
    refine ⟨by rw [alookup_map_replace, h]; rfl, ?_⟩
    simp
  · intro hor
    unfold PaperBroker.mark_to_market
    simp only [h]
    cases hliq : liq_triggered (mtmUpdated pos price) price with
    | true =>
      simp only [if_true, hceq]
      exact hdo
    | false =>
      cases htp : tp_triggered (mtmUpdated pos price) price with
      | true =>
        simp only [Bool.false_eq_true, if_false, if_true, hceq]
        exact hdo
      | false =>
        cases hsl : sl_triggered (mtmUpdated pos price) price with
        | true =>
          simp only [Bool.false_eq_true, if_false, if_true, hceq]
          exact hdo
        | false =>
          rw [hliq, htp, hsl] at hor
          simp at hor

/-- C2 witness: marking the BTCUSDT long at price 100 (no trigger fires)
keeps the updated position and closes nothing. -/
theorem C2_witness :
    alookup (pyUpper "BTCUSDT")
      (PaperBroker.mark_to_market defaultSettings brokerOne "BTCUSDT" 100 0).positions
      = some (mtmUpdated posLong 100) ∧
    (PaperBroker.mark_to_market defaultSettings brokerOne "BTCUSDT" 100 0).closed_count
      = brokerOne.closed_count ∧
    (PaperBroker.mark_to_market defaultSettings brokerOne "BTCUSDT" 100 0).last_closed
      = brokerOne.last_closed :=
  (C2_mark_to_market defaultSettings brokerOne "BTCUSDT" 100 0 posLong
      (by rw [show pyUpper "BTCUSDT" = "BTCUSDT" from by decide]; rfl)
      (by decide)).2.2.1
    (by with_unfolding_all decide) (by with_unfolding_all decide)
    (by with_unfolding_all decide)

theorem spread_bps_eq (st : SymbolState) {bb ba : ℚ} (hb : st.best_bid = some bb)
    (ha : st.best_ask = some ba) :
    st.spread_bps = if bb = 0 ∨ ba = 0 ∨ bb ≤ 0 then none
      else if (ba + bb) / 2 ≤ 0 then none
      else some ((ba - bb) / ((ba + bb) / 2) * 10000) := by
  unfold SymbolState.spread_bps
  rw [hb, ha]

theorem spread_bps_none_of_bid_none (st : SymbolState) (h : st.best_bid = none) :
    st.spread_bps = none := by
  unfold SymbolState.spread_bps
  rw [h]

theorem spread_bps_none_of_ask_none (st : SymbolState) (h : st.best_ask = none) :
    st.spread_bps = none := by
  unfold SymbolState.spread_bps
  rw [h]
  cases h2 : st.best_bid <;> rfl

/-- C8 counterexample: after a top-of-book update with best_bid = 1 and
best_ask = −1/2, the ask is non-positive yet spread_bps is defined, and its
value −60000 is negative — refuting both halves of the claim at one state. -/
theorem C8_spread_bps_cex :
    ((SymbolState.initDefault "BTCUSDT").on_depth_top 1 (-(1/2)) 5 5 1000).spread_bps
        = some (-60000) ∧
    (-(1/2) : ℚ) ≤ 0 ∧ ¬ (0 : ℚ) ≤ -60000 := by
  refine ⟨?_, by norm_num, by norm_num⟩
  rw [spread_bps_eq _ rfl rfl]
  norm_num

/-- C8 amended: spread_bps is undefined whenever the best bid is missing,
zero or negative, or the best ask is missing or zero, or the mid-price is
non-positive; whenever both sides are strictly positive it is defined, and
its value is non-negative provided the book is not crossed (ask ≥ bid).  A
negative non-zero ask can slip through the guard, and a crossed book gives
a negative value. -/
theorem C8_spread_bps_amended (st : SymbolState) :
    ((st.best_bid = none ∨ st.best_ask = none ∨ st.best_bid = some 0 ∨
      st.best_ask = some 0 ∨ (∃ bb, st.best_bid = some bb ∧ bb ≤ 0) ∨
      (∃ bb ba, st.best_bid = some bb ∧ st.best_ask = some ba ∧ (ba + bb) / 2 ≤ 0)) →
      st.spread_bps = none) ∧
    (∀ bb ba, st.best_bid = some bb → st.best_ask = some ba → 0 < bb → bb ≤ ba →
      ∃ v, st.spread_bps = some v ∧ 0 ≤ v) := by
  constructor
  · intro hcase
    rcases hcase with h | h | h | h | ⟨bb, hb, hle⟩ | ⟨bb, ba, hb, ha, hmid⟩
    · exact spread_bps_none_of_bid_none st h
    · exact spread_bps_none_of_ask_none st h
    · cases hask : st.best_ask with
      | none => exact spread_bps_none_of_ask_none st hask
      | some ba => rw [spread_bps_eq st h hask, if_pos (Or.inl rfl)]
    · cases hbid : st.best_bid with
      | none => exact spread_bps_none_of_bid_none st hbid
      | some bb => rw [spread_bps_eq st hbid h, if_pos (Or.inr (Or.inl rfl))]
    · cases hask : st.best_ask with
      | none => exact spread_bps_none_of_ask_none st hask
      | some ba =>
        rw [spread_bps_eq st hb hask, if_pos (Or.inr (Or.inr hle))]
    · rw [spread_bps_eq st hb ha]
      by_cases hz : bb = 0 ∨ ba = 0 ∨ bb ≤ 0
      · rw [if_pos hz]
      · rw [if_neg hz, if_pos hmid]
  · intro bb ba hb ha hbb hba
    rw [spread_bps_eq st hb ha]
    have hz : ¬ (bb = 0 ∨ ba = 0 ∨ bb ≤ 0) := by
      push_neg
      refine ⟨ne_of_gt hbb, ne_of_gt (lt_of_lt_of_le hbb hba), hbb⟩
    have hmid : ¬ (ba + bb) / 2 ≤ 0 := by
      push_neg
      have : (0 : ℚ) < ba := lt_of_lt_of_le hbb hba
      positivity
    rw [if_neg hz, if_neg hmid]
    refine ⟨_, rfl, ?_⟩
    have h1 : (0 : ℚ) ≤ ba - bb := by linarith
    have h2 : (0 : ℚ) < (ba + bb) / 2 := by
      have : (0 : ℚ) < ba := lt_of_lt_of_le hbb hba
      positivity
    positivity

/-- C8 witness for the amended claim: bid 1, ask 2 gives a defined,
non-negative spread. -/
theorem C8_witness :
    ∃ v, ((SymbolState.initDefault "BTCUSDT").on_depth_top 1 2 5 5 1000).spread_bps
        = some v ∧ 0 ≤ v :=
  (C8_spread_bps_amended
      ((SymbolState.initDefault "BTCUSDT").on_depth_top 1 2 5 5 1000)).2 1 2
    rfl rfl (by norm_num) (by norm_num)

/-! ### RSI invariant (claim C7) -/

/-- The invariant the RSI bookkeeping maintains: non-negative smoothed
averages, and a defined RSI value lies in [0, 100] and equals 100 exactly
when the smoothed loss is zero. -/
def RsiInv (g l : ℚ) (rv : Option ℚ) : Prop :=
  0 ≤ g ∧ 0 ≤ l ∧ ∀ v, rv = some v → 0 ≤ v ∧ v ≤ 100 ∧ (l = 0 → v = 100)

/-- The new smoothed average gain produced by the RSI block. -/
def rsiG (pp : ℚ) (period : ℤ) (g l p : ℚ) : ℚ :=
  if g = 0 ∧ l = 0 then max (p - pp) 0
  else (g * ((period : ℚ) - 1) + max (p - pp) 0) / (period : ℚ)

/-- The new smoothed average loss produced by the RSI block. -/
def rsiL (pp : ℚ) (period : ℤ) (g l p : ℚ) : ℚ :=
  if g = 0 ∧ l = 0 then max (-(p - pp)) 0
  else (l * ((period : ℚ) - 1) + max (-(p - pp)) 0) / (period : ℚ)

theorem rsiStep_some_eq (pp : ℚ) (period : ℤ) (g l : ℚ) (rv : Option ℚ) (p : ℚ) :
    rsiStep (some pp) period g l rv p =
      (rsiG pp period g l p, rsiL pp period g l p,
       if rsiL pp period g l p = 0 then some 100
       else some (100 - 100 / (1 + rsiG pp period g l p / rsiL pp period g l p))) := rfl

theorem rsiG_nonneg {pp : ℚ} {period : ℤ} {g l p : ℚ} (hp : 1 ≤ period) (hg : 0 ≤ g) :
    0 ≤ rsiG pp period g l p := by
  unfold rsiG
  have hpq : (1 : ℚ) ≤ (period : ℚ) := by exact_mod_cast hp
  split
  · exact le_max_right _ _
  · apply div_nonneg
    · exact add_nonneg (mul_nonneg hg (by linarith)) (le_max_right _ _)
    · linarith

theorem rsiL_nonneg {pp : ℚ} {period : ℤ} {g l p : ℚ} (hp : 1 ≤ period) (hl : 0 ≤ l) :
    0 ≤ rsiL pp period g l p := by
  unfold rsiL
  have hpq : (1 : ℚ) ≤ (period : ℚ) := by exact_mod_cast hp
  split
  · exact le_max_right _ _
  · apply div_nonneg
    · exact add_nonneg (mul_nonneg hl (by linarith)) (le_max_right _ _)
    · linarith

theorem rsiStep_inv {prev : Option ℚ} {period : ℤ} {g l : ℚ} {rv : Option ℚ} {p : ℚ}
    (hp : 1 ≤ period) (h : RsiInv g l rv) :
    RsiInv (rsiStep prev period g l rv p).1 (rsiStep prev period g l rv p).2.1
      (rsiStep prev period g l rv p).2.2 := by
  obtain ⟨hg, hl, hrv⟩ := h
  cases prev with
  | none => exact ⟨hg, hl, hrv⟩
  | some pp =>
    rw [rsiStep_some_eq]
    refine ⟨rsiG_nonneg hp hg, rsiL_nonneg hp hl, ?_⟩
    intro v hv
    by_cases hl0 : rsiL pp period g l p = 0
    · rw [if_pos hl0] at hv
      simp only [Option.some.injEq] at hv
      subst hv
      exact ⟨by norm_num, by norm_num, fun _ => rfl⟩
    · rw [if_neg hl0] at hv
      simp only [Option.some.injEq] at hv
      subst hv
      have hlpos : 0 < rsiL pp period g l p :=
        lt_of_le_of_ne (rsiL_nonneg hp hl) (Ne.symm hl0)
      have hrs : 0 ≤ rsiG pp period g l p / rsiL pp period g l p :=
        div_nonneg (rsiG_nonneg hp hg) (le_of_lt hlpos)
      have hd1 : (1 : ℚ) ≤ 1 + rsiG pp period g l p / rsiL pp period g l p := by linarith
      have hle : (100 : ℚ) / (1 + rsiG pp period g l p / rsiL pp period g l p) ≤ 100 :=
        div_le_self (by norm_num) hd1
      have hge : (0 : ℚ) ≤ 100 / (1 + rsiG pp period g l p / rsiL pp period g l p) := by
        apply div_nonneg (by norm_num)
        linarith
      exact ⟨by linarith, by linarith, fun hcon => absurd hcon hl0⟩

/-- Feeding a sequence of (price, qty, ts, aggressor) trade events into a
SymbolState via on_trade. -/
def feed (st : SymbolState) (evs : List (ℚ × ℚ × ℤ × Option Bool)) : SymbolState :=
  evs.foldl (fun acc e => (acc.on_trade e.1 e.2.1 e.2.2.1 e.2.2.2).1) st

theorem feed_inv (evs : List (ℚ × ℚ × ℤ × Option Bool)) (st : SymbolState)
    (hp : 1 ≤ st.rsi_period)
    (h : RsiInv st.rsi_gain st.rsi_loss st.rsi_value) :
    1 ≤ (feed st evs).rsi_period ∧
    RsiInv (feed st evs).rsi_gain (feed st evs).rsi_loss (feed st evs).rsi_value := by
  induction evs generalizing st with
  | nil => exact ⟨hp, h⟩
  | cons e rest ih =>
    have hstep : RsiInv (st.on_trade e.1 e.2.1 e.2.2.1 e.2.2.2).1.rsi_gain
        (st.on_trade e.1 e.2.1 e.2.2.1 e.2.2.2).1.rsi_loss
        (st.on_trade e.1 e.2.1 e.2.2.1 e.2.2.2).1.rsi_value := by
      have heq : (st.on_trade e.1 e.2.1 e.2.2.1 e.2.2.2).1.rsi_gain
          = (rsiStep st.prev_price st.rsi_period st.rsi_gain st.rsi_loss st.rsi_value e.1).1
          := rfl
      have heq2 : (st.on_trade e.1 e.2.1 e.2.2.1 e.2.2.2).1.rsi_loss
          = (rsiStep st.prev_price st.rsi_period st.rsi_gain st.rsi_loss st.rsi_value e.1).2.1
          := rfl
      have heq3 : (st.on_trade e.1 e.2.1 e.2.2.1 e.2.2.2).1.rsi_value
          = (rsiStep st.prev_price st.rsi_period st.rsi_gain st.rsi_loss st.rsi_value e.1).2.2
          := rfl
      rw [heq, heq2, heq3]
      exact rsiStep_inv hp h
    have hper : (st.on_trade e.1 e.2.1 e.2.2.1 e.2.2.2).1.rsi_period = st.rsi_period := rfl
    have hfold : feed st (e :: rest) = feed (st.on_trade e.1 e.2.1 e.2.2.1 e.2.2.2).1 rest
      := rfl
    rw [hfold]
    exact ih _ (by rw [hper]; exact hp) hstep

/-- C7: whenever the RSI value of a state reached from a fresh SymbolState
by any sequence of on_trade events is defined, it lies in [0, 100], and it
equals exactly 100 whenever the Wilder-smoothed average loss is zero. -/
theorem C7_rsi_range (symbol : String) (ema_f ema_s : ℤ) (tml dml : ℕ)
    (evs : List (ℚ × ℚ × ℤ × Option Bool)) (v : ℚ)
    (hv : (feed (SymbolState.init symbol ema_f ema_s tml dml) evs).rsi_value = some v) :
    0 ≤ v ∧ v ≤ 100 ∧
    ((feed (SymbolState.init symbol ema_f ema_s tml dml) evs).rsi_loss = 0 → v = 100) := by
  have hinit : RsiInv (SymbolState.init symbol ema_f ema_s tml dml).rsi_gain
      (SymbolState.init symbol ema_f ema_s tml dml).rsi_loss
      (SymbolState.init symbol ema_f ema_s tml dml).rsi_value := by
    refine ⟨le_refl 0, le_refl 0, ?_⟩
    intro w hw
    exact absurd hw (by simp [SymbolState.init])
  obtain ⟨-, -, -, hval⟩ := feed_inv evs (SymbolState.init symbol ema_f ema_s tml dml)
    (by norm_num [SymbolState.init]) hinit
  exact hval v hv

/-- C7 witness: two trades at prices 100 then 101 give RSI exactly 100
(the smoothed loss is zero after a pure gain). -/
theorem C7_witness :
    0 ≤ (100 : ℚ) ∧ (100 : ℚ) ≤ 100 ∧
    ((feed (SymbolState.init "BTCUSDT" 5 20 6000 400)
        [(100, 1, 1000, none), (101, 1, 2000, none)]).rsi_loss = 0 → (100 : ℚ) = 100) :=
  C7_rsi_range "BTCUSDT" 5 20 6000 400 [(100, 1, 1000, none), (101, 1, 2000, none)] 100
    (by with_unfolding_all decide)

/-! ### Decision engine and missing metrics (claim C6) -/

/-- A concrete instrument state whose RSI is undefined (as are the
volume-spike, candle and S/R attributes the decision engine reads, which
SymbolState never defines) but where every hard filter passes and the long
predicate holds. -/
def stateCex : SymbolState where
  symbol := "BTCUSDT"
  trades := [⟨99000, 100, 1, some true⟩, ⟨99200, 1003/10, 1, some true⟩,
             ⟨99400, 998/10, 1, some false⟩, ⟨99600, 1002/10, 1, some true⟩,
             ⟨99800, 100, 1, some true⟩]
  trade_maxlen := 6000
  depth_maxlen := 400
  last_price := some 100
  last_qty := some 1
  last_ts := some 99800
  ema_fast := { period := 5, k := 2/6, value := some (201/2) }
  ema_slow := { period := 20, k := 2/21, value := some 100 }
  best_bid := some (9999/100)
  best_ask := some (10001/100)
  bid_vol := 2
  ask_vol := 1
  depth_events := []
  rsi_period := 14
  rsi_gain := 0
  rsi_loss := 0
  rsi_value := none
  prev_price := some 100
  vol_60s := 5
  vol_ema_60s_10m := some 5
  vol_ema_alpha := 2/11
  cvd_hist := []
  cvd_10m := 60
  candle60_open := none
  candle60_close := none
  drop_candle := false
  swing_high := some (1003/10)
  swing_low := some (998/10)
  dist_to_res := none
  dist_to_sup := none

/-- C6 counterexample: a state whose RSI is undefined (rsi_value = none)
on which the decision engine still returns long, not none. -/
theorem C6_missing_metric_cex :
    decide_side defaultSettings stateCex 0 = some "long" ∧
    stateCex.rsi_value = none := by
  with_unfolding_all decide

/-- C6 amended: the decision is none whenever the last price, either EMA,
the ATR-like value, the spread, the derived VWAP deviation, or the buy
pressure is undefined.  An undefined RSI, imbalance, volume-spike ratio,
CVD, or support/resistance distance does not force none: the RSI and
imbalance gates are simply skipped for the long predicate when undefined
(the short predicate requires RSI), and the volume-spike, CVD-undefined
and S/R vetoes never apply since SymbolState does not define the
attributes the engine reads for them. -/
theorem C6_decide_none_of_missing (s : Settings) (st : SymbolState) (nowMs : ℤ)
    (h : st.last_price = none ∨ st.ema_fast.value = none ∨ st.ema_slow.value = none ∨
      st.atr_like (s.ATR_WINDOW_SEC * 1000) nowMs = none ∨ st.spread_bps = none ∨
      vdevOf s st nowMs = none ∨ st.buy_pressure 2000 nowMs = none) :
    decide_side s st nowMs = none := by
  unfold decide_side
  cases hlp : st.last_price with
  | none => rfl
  | some lpv =>
  cases hef : st.ema_fast.value with
  | none => rfl
  | some efv =>
  cases hes : st.ema_slow.value with
  | none => rfl
  | some esv =>
  cases hatr : st.atr_like (s.ATR_WINDOW_SEC * 1000) nowMs with
  | none => rfl
  | some atrv =>
  cases hspr : st.spread_bps with
  | none => rfl
  | some sprv =>
  rcases h with h | h | h | h | h | h | h
  · rw [hlp] at h
    exact Option.noConfusion h
  · rw [hef] at h
    exact Option.noConfusion h
  · rw [hes] at h
    exact Option.noConfusion h
  · rw [hatr] at h
    exact Option.noConfusion h
  · rw [hspr] at h
    exact Option.noConfusion h
  · rw [h]
    dsimp only
    split
    · rfl
    split
    · rfl
    split
    · rfl
    rfl
  · rw [h]
    dsimp only
    split
    · rfl
    split
    · rfl
    split
    · rfl
    cases hvd : vdevOf s st nowMs with
    | none => rfl
    | some vd => simp

/-- C6 witness for the amended claim: the fresh state has no last price, so
the decision is none. -/
theorem C6_witness :
    decide_side defaultSettings (SymbolState.initDefault "BTCUSDT") 0 = none :=
  C6_decide_none_of_missing defaultSettings (SymbolState.initDefault "BTCUSDT") 0
    (Or.inl rfl)

/-! ### Flip/cooldown controller (claim C3) -/

theorem alookup_upsert_self (l : List (String × α)) (k : String) (v : α) :
    alookup k (upsert l k v) = some v := by
  unfold upsert
  by_cases h : (alookup k l).isSome
  · rw [if_pos h, alookup_map_replace]
    obtain ⟨w, hw⟩ := Option.isSome_iff_exists.mp h
    rw [hw]
    rfl
  · rw [if_neg h]
    exact alookup_append_single_self _ (Option.not_isSome_iff_eq_none.mp h)

theorem upsert_of_none {k : String} {v : α} {l : List (String × α)}
    (h : alookup k l = none) : upsert l k v = l ++ [(k, v)] := by
  unfold upsert
  rw [h]
  rfl

theorem map_replace_id_of_none {k : String} {v : α} {l : List (String × α)}
    (h : alookup k l = none) :
    l.map (fun kv => if kv.1 = k then (k, v) else kv) = l := by
  induction l with
  | nil => rfl
  | cons kv rest ih =>
    rw [alookup_cons] at h
    by_cases hk : kv.1 = k
    · rw [if_pos hk] at h; exact absurd h (by simp)
    · rw [if_neg hk] at h
      simp only [List.map_cons, if_neg hk, ih h]

theorem upsert_append_single {k : String} {a b : α} {l : List (String × α)}
    (h : alookup k l = none) : upsert (l ++ [(k, a)]) k b = l ++ [(k, b)] := by
  unfold upsert
  rw [if_pos (by rw [alookup_append_single_self _ h]; rfl)]
  rw [List.map_append]
  rw [map_replace_id_of_none h]
  simp

theorem eraseKey_append_single {k : String} {v : α} {l : List (String × α)}
    (h : alookup k l = none) : eraseKey (l ++ [(k, v)]) k = l := by
  induction l with
  | nil => simp [eraseKey]
  | cons kv rest ih =>
    rw [alookup_cons] at h
    by_cases hk : kv.1 = k
    · rw [if_pos hk] at h; exact absurd h (by simp)
    · rw [if_neg hk] at h
      rw [List.cons_append]
      unfold eraseKey
      rw [if_neg hk, ih h]

/-- C3: with the hard-coded confirmation threshold 2 and an open long
position on the symbol (no pending flip entry): the first short decision
issues no close and no open — the broker and the cooldown map are untouched
and the confirmation counter becomes 1; the second consecutive short
decision (with the signal cooldown elapsed) closes the long at the latest
price, opens a short position at that price, and clears the counter. -/
theorem C3_flip_confirmation (s : Settings) (c : WSClient) (sym : String)
    (pos : Position) (p1 p2 : ℚ) (t1 t2 : ℤ)
    (hsym : pyUpper sym = sym)
    (hpos : alookup sym c.paper.positions = some pos)
    (hside : pos.side = "long")
    (hnd : (c.paper.positions.map Prod.fst).Nodup)
    (hlen : c.paper.positions.length ≤ c.paper.max_positions)
    (hfb : alookup sym c.flip_buffer = none)
    (hcd : 3000 ≤ t2 - (alookup sym c.signal_cooldown).getD 0) :
    (maybe_flip s c sym (some "short") p1 t1).paper = c.paper ∧
    (maybe_flip s c sym (some "short") p1 t1).signal_cooldown = c.signal_cooldown ∧
    alookup sym (maybe_flip s c sym (some "short") p1 t1).flip_buffer
      = some { want := "short", count := 1 } ∧
    (∃ q, alookup sym (maybe_flip s (maybe_flip s c sym (some "short") p1 t1) sym
          (some "short") p2 t2).paper.positions = some q ∧
        q.side = "short" ∧ q.entry = p2) ∧
    (maybe_flip s (maybe_flip s c sym (some "short") p1 t1) sym
        (some "short") p2 t2).paper.closed_count = c.paper.closed_count + 1 ∧
    (∃ record, (maybe_flip s (maybe_flip s c sym (some "short") p1 t1) sym
          (some "short") p2 t2).paper.last_closed = some record ∧
        record.side = "long" ∧ record.exit = p2) ∧
    alookup sym (maybe_flip s (maybe_flip s c sym (some "short") p1 t1) sym
        (some "short") p2 t2).flip_buffer = none := by
  have h1 : maybe_flip s c sym (some "short") p1 t1
      = { c with flip_buffer := upsert c.flip_buffer sym { want := "short", count := 1 } }
      := by
    unfold maybe_flip
    rw [hpos]
    dsimp only
    rw [hside, hfb]
    norm_num
  have hlookC : alookup (pyUpper sym) c.paper.positions = some pos := by
    rw [hsym]; exact hpos
  obtain ⟨b2, pc, hceq, hbpos, hbmax, hbcnt, c05, c06, c07, c08, c09, c10, c11, c12, c13, c14,
    record, hlast, r01, r02, r03, r04, r05, r06, r07, r08, r09, r10, r11, r12⟩ :=
    close_spec s p2 none t2 hlookC
  have hb2look : alookup sym b2.positions = none := by
    rw [hbpos, hsym]
    exact alookup_eraseKey_self hnd
  have hb2cap : b2.positions.length < b2.max_positions := by
    rw [hbmax, hbpos, hsym]
    have hlen2 := eraseKey_length (l := c.paper.positions) (k := sym) (v := pos) hpos
    omega
  have hfree2 : alookup (pyUpper sym) b2.positions = none := by rw [hsym]; exact hb2look
  obtain ⟨b3, pnew, hoeq, hopos, homax, hocnt, holast, ho1, ho2, ho3, ho4, ho5, ho6, ho7,
    ho8, ho9, ho10, ho11, ho12, ho13⟩ :=
    open_spec s "short" (calc_auto_params s sym "short" p2).qty p2
      (some (calc_auto_params s sym "short" p2).sl)
      (some (calc_auto_params s sym "short" p2).tp)
      (some (calc_auto_params s sym "short" p2).lev)
      (some (calc_auto_params s sym "short" p2).margin)
      (some s.MAINT_MARGIN_RATE) none t2 hfree2 hb2cap
  have h2 : maybe_flip s { c with
        flip_buffer := upsert c.flip_buffer sym { want := "short", count := 1 } }
        sym (some "short") p2 t2
      = { paper := b3
          signal_cooldown := upsert c.signal_cooldown sym t2
          flip_buffer := eraseKey (upsert (upsert c.flip_buffer sym
            { want := "short", count := 1 }) sym { want := "short", count := 2 }) sym } := by
    unfold maybe_flip
    dsimp only
    rw [hpos]
    dsimp only
    rw [hside]
    rw [alookup_upsert_self]
    norm_num
    rw [hceq]
    dsimp only
    unfold open_auto
    dsimp only
    rw [if_neg (by omega)]
    rw [hb2look]
    rw [hoeq]
    rfl
  rw [h1, h2]
  refine ⟨rfl, rfl, by rw [alookup_upsert_self], ⟨pnew, ?_, ho2, ho4⟩, ?_, ⟨record, ?_, ?_, r05⟩, ?_⟩
  · show alookup sym b3.positions = some pnew
    rw [hopos, hsym]
    exact alookup_append_single_self _ hb2look
  · show b3.closed_count = c.paper.closed_count + 1
    rw [hocnt, hbcnt]
  · show b3.last_closed = some record
    rw [holast, hlast]
  · rw [r02, hside]
  · show alookup sym (eraseKey (upsert (upsert c.flip_buffer sym
      { want := "short", count := 1 }) sym { want := "short", count := 2 }) sym) = none
    rw [upsert_of_none hfb, upsert_append_single hfb, eraseKey_append_single hfb]
    exact hfb

/-- A controller state holding the BTCUSDT long with empty cooldown and
flip maps. -/
def clientW : WSClient :=
  { paper := brokerOne, signal_cooldown := [], flip_buffer := [] }

/-- C3 witness: the flip sequence [short, short] on the BTCUSDT long at
prices 100 then 101 (cooldown elapsed at the second decision). -/
theorem C3_witness :
    (maybe_flip defaultSettings clientW "BTCUSDT" (some "short") 100 5000).paper
        = clientW.paper ∧
    (maybe_flip defaultSettings clientW "BTCUSDT" (some "short") 100 5000).signal_cooldown
        = clientW.signal_cooldown ∧
    alookup "BTCUSDT" (maybe_flip defaultSettings clientW "BTCUSDT" (some "short") 100
        5000).flip_buffer = some { want := "short", count := 1 } ∧
    (∃ q, alookup "BTCUSDT" (maybe_flip defaultSettings
          (maybe_flip defaultSettings clientW "BTCUSDT" (some "short") 100 5000) "BTCUSDT"
          (some "short") 101 9000).paper.positions = some q ∧
        q.side = "short" ∧ q.entry = 101) ∧
    (maybe_flip defaultSettings (maybe_flip defaultSettings clientW "BTCUSDT" (some "short")
        100 5000) "BTCUSDT" (some "short") 101 9000).paper.closed_count
        = clientW.paper.closed_count + 1 ∧
    (∃ record, (maybe_flip defaultSettings (maybe_flip defaultSettings clientW "BTCUSDT"
          (some "short") 100 5000) "BTCUSDT" (some "short") 101 9000).paper.last_closed
          = some record ∧ record.side = "long" ∧ record.exit = 101) ∧
    alookup "BTCUSDT" (maybe_flip defaultSettings (maybe_flip defaultSettings clientW
        "BTCUSDT" (some "short") 100 5000) "BTCUSDT" (some "short") 101 9000).flip_buffer
        = none :=
  C3_flip_confirmation defaultSettings clientW "BTCUSDT" posLong 100 101 5000 9000
    (by decide) rfl rfl (by decide) (by decide) rfl (by decide)

/-- A controller state holding the BTCUSDT long whose last opening action
was at t = 8000 ms. -/
def clientW2 : WSClient :=
  { paper := brokerOne, signal_cooldown := [("BTCUSDT", 8000)], flip_buffer := [] }

/-- C3 counterexample to the unconditional reading: when the second short
decision arrives within the 3000 ms signal cooldown of the last opening
action (here 1000 ms after it), the controller closes the long but opens
no short position, leaving the symbol flat. -/
theorem C3_flip_cooldown_cex :
    alookup "BTCUSDT" (maybe_flip defaultSettings (maybe_flip defaultSettings clientW2
        "BTCUSDT" (some "short") 100 8500) "BTCUSDT" (some "short") 101
        9000).paper.positions = none ∧
    (maybe_flip defaultSettings (maybe_flip defaultSettings clientW2 "BTCUSDT"
        (some "short") 100 8500) "BTCUSDT" (some "short") 101 9000).paper.closed_count
      = 1 := by
  with_unfolding_all decide

end App
